import Mathlib

/-!
# Verification of the Counterparty signer extension core

A shallow embedding of the JavaScript sources of the counterparty-extension
repository (`src/lib/bitcoin-simple.js`, `src/lib/noble/ripemd160-wrapper.js`,
`src/background/background.js`) together with proofs and refutations of the
specification claims.

Conventions used throughout:
* JavaScript byte arrays (`Uint8Array`, plain arrays of byte values) are
  `List Nat` with entries in `[0, 256)` where the code guarantees it.
* JavaScript 32-bit bitwise results (`x | y`, `x << n` ...) are signed int32
  values; where the code stores them we model the stored value as `Int` with
  explicit two's-complement reduction.
* A JavaScript `offset` that can become `NaN` (from `undefined` arithmetic on
  out-of-range reads) is an `Option Nat`, with `none` playing the role of
  `NaN`; `array[NaN]` is `undefined`, modelled as `none`.
-/

namespace CounterpartyExt

/-- JavaScript byte arrays are lists of naturals (each < 256 where the code
guarantees it). -/
abbrev Bytes := List Nat

/-- Decidable equality for `Except`, used to evaluate the embedded fallible
operations on concrete inputs. -/
instance {e a : Type} [DecidableEq e] [DecidableEq a] : DecidableEq (Except e a) := fun x y =>
  match x, y with
  | .ok u, .ok v => if h : u = v then .isTrue (by rw [h]) else .isFalse (by simp [h])
  | .error u, .error v => if h : u = v then .isTrue (by rw [h]) else .isFalse (by simp [h])
  | .ok _, .error _ => .isFalse (by simp)
  | .error _, .ok _ => .isFalse (by simp)

/-! ## Hex codec (`BitcoinSigner.hexToBytes` / `BitcoinSigner.bytesToHex`) -/

/-- Value of one hex digit character, as `parseInt` accepts it (both cases). -/
def hexCharVal (c : Char) : Option Nat :=
  if '0' ≤ c ∧ c ≤ '9' then some (c.toNat - '0'.toNat)
  else if 'a' ≤ c ∧ c ≤ 'f' then some (c.toNat - 'a'.toNat + 10)
  else if 'A' ≤ c ∧ c ≤ 'F' then some (c.toNat - 'A'.toNat + 10)
  else none

/-- JavaScript `parseInt(two-char-string, 16)` followed by the `Uint8Array`
store (`ToUint8`): a maximal valid prefix is parsed, `NaN` is stored as `0`. -/
def parseHexPair (c₁ c₂ : Char) : Nat :=
  match hexCharVal c₁, hexCharVal c₂ with
  | some a, some b => 16 * a + b
  | some a, none => a
  | none, _ => 0

/-- `BitcoinSigner.hexToBytes`: split the string into 2-character groups and
`parseInt` each (the source allocates `hex.length / 2` bytes, so a trailing
odd character is ignored in this model; the claims only exercise even-length
input). -/
def hexToBytes (hex : String) : Bytes :=
  go hex.data
where
  go : List Char → Bytes
    | c₁ :: c₂ :: rest => parseHexPair c₁ c₂ :: go rest
    | _ => []

/-- Lower-case hex digit for a value < 16, as `Number.prototype.toString(16)`
produces. -/
def hexDigit (d : Nat) : Char :=
  if d < 10 then Char.ofNat (d + '0'.toNat) else Char.ofNat (d - 10 + 'a'.toNat)

/-- `b.toString(16).padStart(2, '0')` for a byte value `b < 256`. -/
def byteToHex (b : Nat) : List Char :=
  [hexDigit (b / 16), hexDigit (b % 16)]

/-- `BitcoinSigner.bytesToHex`. -/
def bytesToHex (bs : Bytes) : String :=
  String.mk (bs.flatMap byteToHex)

/-! ## RIPEMD-160, both copies present in the source

`src/lib/noble/ripemd160-wrapper.js` contains two from-scratch RIPEMD-160
implementations: the `nobleRipemd160` IIFE (lines 55-116) and the inline
static method `BitcoinSigner.ripemd160` (lines 516-600).  They share the
message-index and rotation tables verbatim; they differ in how the
round-function selector for the right lane is computed. -/

/-- 2^32, the modulus of JavaScript 32-bit bitwise arithmetic. -/
def two32 : Nat := 4294967296

/-- 32-bit left rotation (`rotl` in both copies). -/
def rotl32 (x n : Nat) : Nat :=
  (x * 2 ^ n + x / 2 ^ (32 - n)) % two32

/-- 32-bit complement: JavaScript `~y` on a value < 2^32, viewed unsigned. -/
def not32 (y : Nat) : Nat := 4294967295 - y

/-- The five RIPEMD-160 round functions `f(0) .. f(4)` (identical in both
copies of the source up to argument order). -/
def rf (s x y z : Nat) : Nat :=
  if s = 0 then x ^^^ y ^^^ z
  else if s = 1 then (x &&& y) ||| (not32 x &&& z)
  else if s = 2 then (x ||| not32 y) ^^^ z
  else if s = 3 then (x &&& z) ||| (y &&& not32 z)
  else x ^^^ (y ||| not32 z)

/-- Message index table, left lane (`zl`, identical in both copies). -/
def zl : List Nat :=
  [0, 1, 2, 3, 4, 5, 6, 7, 8, 9, 10, 11, 12, 13, 14, 15,
   7, 4, 13, 1, 10, 6, 15, 3, 12, 0, 9, 5, 2, 14, 11, 8,
   3, 10, 14, 4, 9, 15, 8, 1, 2, 7, 0, 6, 13, 11, 5, 12,
   1, 9, 11, 10, 0, 8, 12, 4, 13, 3, 7, 15, 14, 5, 6, 2,
   4, 0, 5, 9, 7, 12, 2, 10, 14, 1, 3, 8, 11, 6, 15, 13]

/-- Message index table, right lane (`zr`, identical in both copies). -/
def zr : List Nat :=
  [5, 14, 7, 0, 9, 2, 11, 4, 13, 6, 15, 8, 1, 10, 3, 12,
   6, 11, 3, 7, 0, 13, 5, 10, 14, 15, 8, 12, 4, 9, 1, 2,
   15, 5, 1, 3, 7, 14, 6, 9, 11, 8, 12, 2, 10, 0, 4, 13,
   8, 6, 4, 1, 3, 11, 15, 0, 5, 12, 2, 13, 9, 7, 10, 14,
   12, 15, 10, 4, 1, 5, 8, 7, 6, 2, 13, 14, 0, 3, 9, 11]

/-- Rotation amounts, left lane (`sl`, identical in both copies). -/
def sl : List Nat :=
  [11, 14, 15, 12, 5, 8, 7, 9, 11, 13, 14, 15, 6, 7, 9, 8,
   7, 6, 8, 13, 11, 9, 7, 15, 7, 12, 15, 9, 11, 7, 13, 12,
   11, 13, 6, 7, 14, 9, 13, 15, 14, 8, 13, 6, 5, 12, 7, 5,
   11, 12, 14, 15, 14, 15, 9, 8, 9, 14, 5, 6, 8, 6, 5, 12,
   9, 15, 5, 11, 6, 8, 13, 12, 5, 12, 13, 14, 11, 8, 5, 6]

/-- Rotation amounts, right lane (`sr`, identical in both copies). -/
def sr : List Nat :=
  [8, 9, 9, 11, 13, 15, 15, 5, 7, 7, 8, 11, 14, 14, 12, 6,
   9, 13, 15, 7, 12, 8, 9, 11, 7, 7, 12, 7, 6, 15, 13, 11,
   9, 7, 15, 11, 8, 6, 6, 14, 12, 13, 5, 14, 13, 13, 7, 5,
   15, 5, 8, 11, 14, 14, 6, 14, 6, 9, 12, 9, 12, 5, 15, 8,
   8, 5, 12, 9, 12, 5, 14, 6, 8, 13, 6, 5, 15, 13, 11, 11]

/-- Round constants, left lane (`Kl` in the first copy, the inline array in
the second). -/
def kl : List Nat := [0, 1518500249, 1859775393, 2400959708, 2840853838]

/-- Round constants, right lane (`Kr` in the first copy, the inline array in
the second). -/
def kr : List Nat := [1352829926, 1548603684, 1836072691, 2053994217, 0]

/-- The ten chaining/working words of one RIPEMD-160 compression. -/
structure RState where
  al : Nat
  bl : Nat
  cl : Nat
  dl : Nat
  el : Nat
  ar : Nat
  br : Nat
  cr : Nat
  dr : Nat
  er : Nat

/-- One of the 80 rounds, parameterised by the right-lane round-function
selector (the only difference between the two source copies). -/
def rmdRound (rsel : Nat → Nat) (w : List Nat) (st : RState) (j : Nat) : RState :=
  let g := j / 16
  let tl := (st.al + rf g st.bl st.cl st.dl + w.getD (zl.getD j 0) 0 + kl.getD g 0) % two32
  let tl := (rotl32 tl (sl.getD j 0) + st.el) % two32
  let tr := (st.ar + rf (rsel j) st.br st.cr st.dr + w.getD (zr.getD j 0) 0 + kr.getD g 0) % two32
  let tr := (rotl32 tr (sr.getD j 0) + st.er) % two32
  { al := st.el, bl := tl, cl := st.bl, dl := rotl32 st.cl 10, el := st.dl,
    ar := st.er, br := tr, cr := st.br, dr := rotl32 st.cr 10, er := st.dr }

/-- MD4-family padding as both copies implement it:
`padLen = (((msgLen + 8) >> 6) + 1) << 6`, append `0x80`, zero fill, then the
bit length as a 32-bit little-endian word at `padLen - 8` (the four highest
bytes stay zero). -/
def rmdPad (data : Bytes) : Bytes :=
  let msgLen := data.length
  let bitLen := msgLen * 8
  let padLen := ((msgLen + 8) / 64 + 1) * 64
  data ++ [128] ++ List.replicate (padLen - msgLen - 9) 0 ++
    [bitLen % two32 % 256, bitLen % two32 / 256 % 256,
     bitLen % two32 / 65536 % 256, bitLen % two32 / 16777216 % 256] ++
    [0, 0, 0, 0]

/-- Split the padded message into 16-word little-endian blocks. -/
def rmdWords (block : Bytes) : List Nat :=
  (List.range 16).map fun j =>
    block.getD (4 * j) 0 + 256 * block.getD (4 * j + 1) 0 +
      65536 * block.getD (4 * j + 2) 0 + 16777216 * block.getD (4 * j + 3) 0

/-- Main loop of either RIPEMD-160 copy over the already-padded message,
carrying the five chaining words. -/
def rmdMain (rsel : Nat → Nat) : Nat → (Nat × Nat × Nat × Nat × Nat) → Bytes →
    Nat × Nat × Nat × Nat × Nat
  | 0, h, _ => h
  | nblocks + 1, (h0, h1, h2, h3, h4), padded =>
      let w := rmdWords (padded.take 64)
      let st0 : RState :=
        { al := h0, bl := h1, cl := h2, dl := h3, el := h4,
          ar := h0, br := h1, cr := h2, dr := h3, er := h4 }
      let st := (List.range 80).foldl (rmdRound rsel w) st0
      let h := ((h1 + st.cl + st.dr) % two32, (h2 + st.dl + st.er) % two32,
        (h3 + st.el + st.ar) % two32, (h4 + st.al + st.br) % two32,
        (h0 + st.bl + st.cr) % two32)
      rmdMain rsel nblocks h (padded.drop 64)

/-- Serialise the five chaining words little-endian, as both copies do. -/
def rmdOut (h : Nat × Nat × Nat × Nat × Nat) : Bytes :=
  let le32 := fun (x : Nat) => [x % 256, x / 256 % 256, x / 65536 % 256, x / 16777216 % 256]
  le32 h.1 ++ le32 h.2.1 ++ le32 h.2.2.1 ++ le32 h.2.2.2.1 ++ le32 h.2.2.2.2

/-- RIPEMD-160 generic in the right-lane selector. -/
def rmd160With (rsel : Nat → Nat) (data : Bytes) : Bytes :=
  let padded := rmdPad data
  rmdOut (rmdMain rsel (padded.length / 64)
    (1732584193, 4023233417, 2562383102, 271733878, 3285377520) padded)

/-- `nobleRipemd160.ripemd160` (wrapper lines 55-116): the right lane uses
`f(4 - group, ...)`. -/
def nobleRipemd160 (data : Bytes) : Bytes :=
  rmd160With (fun j => 4 - j / 16) data

/-- The duplicated inline copy `BitcoinSigner.ripemd160` (wrapper lines
516-600): the right lane uses `f(..., (15 - (j >> 4)) % 5 + (j >= 64 ? 1 : 0))`. -/
def signerRipemd160 (data : Bytes) : Bytes :=
  rmd160With (fun j => (15 - j / 16) % 5 + (if 64 ≤ j then 1 else 0)) data



/-! ## Transaction codec (`BitcoinSigner.parseTransaction` /
`BitcoinSigner.serializeTransaction`, `bitcoin-simple.js` lines 78-147 and
288-320)

The parser does no bounds checking.  In JavaScript an out-of-range
`bytes[offset]` is `undefined`; `undefined` propagates as `NaN` through
`offset += scriptLen`, bitwise operations coerce it to `0`, a `for` bound of
`undefined` runs zero iterations, and `slice` clamps.  The embedding keeps
those semantics: an offset is `Option Nat` (`none` = `NaN`) and a read byte is
`Option Nat` (`none` = `undefined`). -/

/-- `bytes[i]`: `undefined` out of range. -/
def getB (bs : Bytes) (i : Nat) : Option Nat := bs.get? i

/-- `bytes[offset]` where the offset may be `NaN`. -/
def byteAt (bs : Bytes) (o : Option Nat) : Option Nat := o.bind (getB bs)

/-- `offset + k` for a known numeric increment (`NaN` propagates). -/
def oadd (o : Option Nat) (k : Nat) : Option Nat := o.map (· + k)

/-- `offset + scriptLen` where the increment itself may be `undefined`
(`offset` becomes `NaN` if either side is). -/
def oaddO (o l : Option Nat) : Option Nat :=
  match o, l with
  | some a, some b => some (a + b)
  | _, _ => none

/-- Two's-complement int32 value of a natural, as JavaScript bitwise
operators produce. -/
def asInt32 (x : Nat) : Int :=
  let u := x % two32
  if u < 2147483648 then (u : Int) else (u : Int) - 4294967296

/-- `BitcoinSigner.readUInt32LE`: `bytes[o] | bytes[o+1] << 8 | bytes[o+2] << 16
| bytes[o+3] << 24`.  A missing byte (`undefined`) contributes `0`; the result
is a signed int32. -/
def readUInt32LE (bs : Bytes) (o : Option Nat) : Int :=
  let b := fun k => (byteAt bs (oadd o k)).getD 0
  asInt32 (b 0 + 256 * b 1 + 65536 * b 2 + 16777216 * b 3)

/-- `Array.prototype.slice(start, finish)` for clamped nonnegative bounds. -/
def jsSlice (bs : Bytes) (start finish : Nat) : Bytes :=
  (bs.take finish).drop start

/-- `bytes.slice(offset, offset + len)` where offset and length may be `NaN` /
`undefined`: a `NaN` bound is coerced to `0` by `ToIntegerOrInfinity`, so the
result is empty whenever either is missing. -/
def sliceO (bs : Bytes) (o l : Option Nat) : Bytes :=
  match o, l with
  | some s, some len => jsSlice bs s (s + len)
  | some s, none => jsSlice bs s 0
  | none, _ => []

/-- One parsed transaction input (`{hash, index, script, sequence}`). -/
structure TxInput where
  hash : Bytes
  index : Int
  script : Bytes
  sequence : Int
deriving DecidableEq, Repr

/-- One parsed transaction output (`{value, script}`; the value is kept as the
raw 8 bytes, exactly as the source does). -/
structure TxOutput where
  value : Bytes
  script : Bytes
deriving DecidableEq, Repr

/-- A parsed transaction (`{version, inputs, outputs, locktime}`). -/
structure Tx where
  version : Int
  inputs : List TxInput
  outputs : List TxOutput
  locktime : Int
deriving DecidableEq, Repr

/-- The input-parsing loop of `parseTransaction` (lines 92-116), run `count`
times; returns the inputs and the final offset. -/
def parseInputs (bs : Bytes) : Nat → Option Nat → List TxInput × Option Nat
  | 0, off => ([], off)
  | count + 1, off =>
      let hash := sliceO bs off (some 32)
      let off := oadd off 32
      let index := readUInt32LE bs off
      let off := oadd off 4
      let scriptLen := byteAt bs off
      let off := oadd off 1
      let script := sliceO bs off scriptLen
      let off := oaddO off scriptLen
      let sequence := readUInt32LE bs off
      let off := oadd off 4
      let (rest, offEnd) := parseInputs bs count off
      (⟨hash, index, script, sequence⟩ :: rest, offEnd)

/-- The output-parsing loop of `parseTransaction` (lines 124-140). -/
def parseOutputs (bs : Bytes) : Nat → Option Nat → List TxOutput × Option Nat
  | 0, off => ([], off)
  | count + 1, off =>
      let value := sliceO bs off (some 8)
      let off := oadd off 8
      let scriptLen := byteAt bs off
      let off := oadd off 1
      let script := sliceO bs off scriptLen
      let off := oaddO off scriptLen
      let (rest, offEnd) := parseOutputs bs count off
      (⟨value, script⟩ :: rest, offEnd)

/-- `BitcoinSigner.parseTransaction` on the decoded byte array.  A `for`
bound read past the end of the buffer is `undefined` and runs the loop zero
times (`i < undefined` is false). -/
def parseTransactionBytes (bs : Bytes) : Tx :=
  let version := readUInt32LE bs (some 0)
  let inputCount := (byteAt bs (some 4)).getD 0
  let (inputs, off) := parseInputs bs inputCount (some 5)
  let outputCount := (byteAt bs off).getD 0
  let off := oadd off 1
  let (outputs, off) := parseOutputs bs outputCount off
  let locktime := readUInt32LE bs off
  ⟨version, inputs, outputs, locktime⟩

/-- `BitcoinSigner.parseTransaction`. -/
def parseTransaction (txHex : String) : Tx :=
  parseTransactionBytes (hexToBytes txHex)

/-- `BitcoinSigner.uint32ToBytes`: `[num & 0xff, (num >> 8) & 0xff,
(num >> 16) & 0xff, (num >> 24) & 0xff]` — little-endian bytes of the number
reduced mod 2^32 (the shifts are arithmetic on the int32 representative, which
produces exactly these bytes). -/
def uint32ToBytes (num : Int) : Bytes :=
  let u := (num % 4294967296).toNat
  [u % 256, u / 256 % 256, u / 65536 % 256, u / 16777216 % 256]

/-- The byte list pushed by `BitcoinSigner.serializeTransaction` before the
final `Uint8Array` conversion. -/
def serializeTxData (t : Tx) : List Nat :=
  uint32ToBytes t.version ++ [t.inputs.length] ++
    (t.inputs.flatMap fun i =>
      i.hash ++ uint32ToBytes i.index ++ [i.script.length] ++ i.script ++
        uint32ToBytes i.sequence) ++
    [t.outputs.length] ++
    (t.outputs.flatMap fun o => o.value ++ [o.script.length] ++ o.script) ++
    uint32ToBytes t.locktime

/-- `BitcoinSigner.serializeTransaction`: the data array is wrapped in a
`Uint8Array` (reducing every entry mod 256) and hex encoded. -/
def serializeTransaction (t : Tx) : String :=
  bytesToHex ((serializeTxData t).map (· % 256))

/-! ## `BitcoinSigner.decodeWIF` (`bitcoin-simple.js` lines 13-42) -/

/-- The base58 alphabet literal from the source. -/
def base58Alphabet : List Char :=
  "123456789ABCDEFGHJKLMNPQRSTUVWXYZabcdefghijkmnopqrstuvwxyz".data

/-- `ALPHABET.indexOf(char)` (as an `Option` instead of `-1`). -/
def base58Index (c : Char) : Option Nat := base58Alphabet.indexOf? c

/-- The base58 accumulation loop of `decodeWIF`: `decoded = decoded * 58 +
value`, failing on the first character outside the alphabet. -/
def base58Decode : List Char → Nat → Except String Nat
  | [], acc => .ok acc
  | c :: rest, acc =>
      match base58Index c with
      | none => .error "Invalid WIF character"
      | some v => base58Decode rest (acc * 58 + v)

/-- Big-endian base-256 digits, fuel-driven (the fuel only needs to dominate
the number of digits). -/
def beDigits : Nat → Nat → Bytes
  | 0, _ => []
  | fuel + 1, x => if x = 0 then [] else beDigits fuel (x / 256) ++ [x % 256]

/-- `decoded.toString(16)` padded to even length and split into bytes: the
minimal big-endian byte string of the accumulator, with `0` encoded as the
single byte `00`. -/
def natToBytesBE (x : Nat) : Bytes :=
  if x = 0 then [0] else beDigits x x

/-- `bytes.slice(1, -4)`: drop the version byte and the 4 checksum bytes
(clamping exactly as JavaScript `slice` does for short arrays). -/
def stripWIF (bs : Bytes) : Bytes :=
  (bs.take (bs.length - 4)).drop 1

/-- `BitcoinSigner.decodeWIF`. -/
def decodeWIF (wif : String) : Except String Bytes := do
  let decoded ← base58Decode wif.data 0
  let bytes := natToBytesBE decoded
  let privateKeyBytes := stripWIF bytes
  if privateKeyBytes.length = 33 then
    return privateKeyBytes.take 32
  return privateKeyBytes

/-! ## Round-trip analysis for the transaction codec -/

/-- Wellformedness of an input per the data model (32-byte hash, byte-valued
entries, u32 integer fields, one-byte script length). -/
def WfInput (i : TxInput) : Prop :=
  i.hash.length = 32 ∧ (∀ b ∈ i.hash, b < 256) ∧
  0 ≤ i.index ∧ i.index < 4294967296 ∧
  i.script.length ≤ 255 ∧ (∀ b ∈ i.script, b < 256) ∧
  0 ≤ i.sequence ∧ i.sequence < 4294967296

/-- Wellformedness of an output (8 value bytes, one-byte script length). -/
def WfOutput (o : TxOutput) : Prop :=
  o.value.length = 8 ∧ (∀ b ∈ o.value, b < 256) ∧
  o.script.length ≤ 255 ∧ (∀ b ∈ o.script, b < 256)

/-- Wellformedness of a transaction: the §3 data model (u32 fields) plus the
claim's hypotheses (counts and script lengths fit in one byte). -/
def WfTx (t : Tx) : Prop :=
  0 ≤ t.version ∧ t.version < 4294967296 ∧
  0 ≤ t.locktime ∧ t.locktime < 4294967296 ∧
  t.inputs.length ≤ 255 ∧ t.outputs.length ≤ 255 ∧
  (∀ i ∈ t.inputs, WfInput i) ∧ (∀ o ∈ t.outputs, WfOutput o)

/-- The signed-int32 representative of an integer: what `readUInt32LE` hands
back for the u32 whose little-endian bytes were serialized. -/
def toInt32 (v : Int) : Int :=
  if v % 4294967296 < 2147483648 then v % 4294967296 else v % 4294967296 - 4294967296

/-- Apply `toInt32` to the integer fields of an input. -/
def reprInput (i : TxInput) : TxInput :=
  { i with index := toInt32 i.index, sequence := toInt32 i.sequence }

/-- Apply `toInt32` to every integer field of a transaction: the exact result
of a serialize/parse round trip. -/
def reprTx (t : Tx) : Tx :=
  ⟨toInt32 t.version, t.inputs.map reprInput, t.outputs, toInt32 t.locktime⟩

/-- The bytes pushed for one input by `serializeTransaction`. -/
def encInput (i : TxInput) : Bytes :=
  i.hash ++ uint32ToBytes i.index ++ [i.script.length] ++ i.script ++
    uint32ToBytes i.sequence

/-- The bytes pushed for one output by `serializeTransaction`. -/
def encOutput (o : TxOutput) : Bytes :=
  o.value ++ [o.script.length] ++ o.script

theorem serializeTxData_eq (t : Tx) :
    serializeTxData t =
      uint32ToBytes t.version ++ [t.inputs.length] ++ t.inputs.flatMap encInput ++
        [t.outputs.length] ++ t.outputs.flatMap encOutput ++ uint32ToBytes t.locktime := rfl

theorem hexCharVal_hexDigit : ∀ d, d < 16 → hexCharVal (hexDigit d) = some d := by decide

theorem parseHexPair_byteToHex (b : Nat) (hb : b < 256) :
    ∀ rest, hexToBytes.go (byteToHex b ++ rest) = b :: hexToBytes.go rest := by
  intro rest
  have h₁ : b / 16 < 16 := by omega
  have h₂ : b % 16 < 16 := by omega
  have hpair : parseHexPair (hexDigit (b / 16)) (hexDigit (b % 16)) = b := by
    simp only [parseHexPair, hexCharVal_hexDigit _ h₁, hexCharVal_hexDigit _ h₂]
    omega
  simp only [byteToHex, List.cons_append, List.nil_append, hexToBytes.go, hpair]
  rfl

/-- The hex codec of the source round-trips on byte lists. -/
theorem hexToBytes_bytesToHex (bs : Bytes) (h : ∀ b ∈ bs, b < 256) :
    hexToBytes (bytesToHex bs) = bs := by
  induction bs with
  | nil => rfl
  | cons b rest ih =>
      have hb : b < 256 := h b (by simp)
      have hrest : ∀ x ∈ rest, x < 256 := fun x hx => h x (by simp [hx])
      show hexToBytes.go ((b :: rest).flatMap byteToHex) = b :: rest
      rw [List.flatMap_cons, parseHexPair_byteToHex b hb]
      exact congrArg (b :: ·) (ih hrest)

theorem getB_append (pre xs : Bytes) (k : Nat) :
    getB (pre ++ xs) (pre.length + k) = getB xs k := by
  induction pre with
  | nil => simp [getB]
  | cons a l ih => simpa [getB, List.get?, Nat.succ_add] using ih

theorem take_append_len (pre xs : Bytes) (k : Nat) :
    (pre ++ xs).take (pre.length + k) = pre ++ xs.take k := by
  induction pre with
  | nil => simp
  | cons a l ih => simp [List.take, Nat.succ_add, ih]

theorem drop_append_len (pre xs : Bytes) :
    (pre ++ xs).drop pre.length = xs := by
  induction pre with
  | nil => rfl
  | cons a l ih => simpa [List.drop] using ih

/-- Reading a 32-bit word that the serializer wrote yields the signed-int32
representative of the written value. -/
theorem readU32_bytes (pre tail : Bytes) (a0 a1 a2 a3 : Nat) :
    readUInt32LE (pre ++ (a0 :: a1 :: a2 :: a3 :: tail)) (some pre.length)
      = asInt32 (a0 + 256 * a1 + 65536 * a2 + 16777216 * a3) := by
  have g0 : getB (pre ++ (a0 :: a1 :: a2 :: a3 :: tail)) pre.length = some a0 := by
    simpa [getB] using getB_append pre (a0 :: a1 :: a2 :: a3 :: tail) 0
  have g1 : getB (pre ++ (a0 :: a1 :: a2 :: a3 :: tail)) (pre.length + 1) = some a1 := by
    simpa [getB] using getB_append pre (a0 :: a1 :: a2 :: a3 :: tail) 1
  have g2 : getB (pre ++ (a0 :: a1 :: a2 :: a3 :: tail)) (pre.length + 2) = some a2 := by
    simpa [getB] using getB_append pre (a0 :: a1 :: a2 :: a3 :: tail) 2
  have g3 : getB (pre ++ (a0 :: a1 :: a2 :: a3 :: tail)) (pre.length + 3) = some a3 := by
    simpa [getB] using getB_append pre (a0 :: a1 :: a2 :: a3 :: tail) 3
  simp [readUInt32LE, byteAt, oadd, g0, g1, g2, g3]

/-- Reading a 32-bit word that the serializer wrote yields the signed-int32
representative of the written value. -/
theorem readU32_at (bs pre tail : Bytes) (v : Int) (o : Nat)
    (hbs : bs = pre ++ (uint32ToBytes v ++ tail)) (ho : o = pre.length)
    (h0 : 0 ≤ v) (h1 : v < 4294967296) :
    readUInt32LE bs (some o) = toInt32 v := by
  subst hbs ho
  have hu : (v % 4294967296).toNat < 4294967296 := by omega
  rw [show uint32ToBytes v ++ tail
      = (v % 4294967296).toNat % 256 :: (v % 4294967296).toNat / 256 % 256 ::
        (v % 4294967296).toNat / 65536 % 256 :: (v % 4294967296).toNat / 16777216 % 256 ::
        tail from rfl]
  rw [readU32_bytes]
  have hsum : (v % 4294967296).toNat % 256 + 256 * ((v % 4294967296).toNat / 256 % 256) +
      65536 * ((v % 4294967296).toNat / 65536 % 256) +
      16777216 * ((v % 4294967296).toNat / 16777216 % 256) = (v % 4294967296).toNat := by
    omega
  rw [hsum]
  simp only [asInt32, toInt32, two32]
  rw [Nat.mod_eq_of_lt hu]
  split_ifs <;> omega

/-- Slicing exactly the chunk that the serializer wrote returns that chunk. -/
theorem sliceO_at (bs pre xs tail : Bytes) (o n : Nat)
    (hbs : bs = pre ++ (xs ++ tail)) (ho : o = pre.length) (hn : n = xs.length) :
    sliceO bs (some o) (some n) = xs := by
  subst hbs ho hn
  show jsSlice (pre ++ (xs ++ tail)) pre.length (pre.length + xs.length) = xs
  rw [jsSlice, ← List.append_assoc,
    show pre.length + xs.length = (pre ++ xs).length + 0 by simp,
    take_append_len (pre ++ xs) tail 0]
  simp [drop_append_len]

theorem oadd_some (a k : Nat) : oadd (some a) k = some (a + k) := rfl

theorem oaddO_some (a b : Nat) : oaddO (some a) (some b) = some (a + b) := rfl

/-- Reading the byte that the serializer wrote returns that byte. -/
theorem byteAt_at (bs pre tail : Bytes) (b o : Nat)
    (hbs : bs = pre ++ (b :: tail)) (ho : o = pre.length) :
    byteAt bs (some o) = some b := by
  subst hbs ho
  have := getB_append pre (b :: tail) 0
  simpa [byteAt, getB, List.get?] using this

/-- The bytes the serializer pushes for a list of inputs. -/
def encInputs (l : List TxInput) : Bytes := l.flatMap encInput

/-- The bytes the serializer pushes for a list of outputs. -/
def encOutputs (l : List TxOutput) : Bytes := l.flatMap encOutput

theorem encInput_length (i : TxInput) (h : WfInput i) :
    (encInput i).length = 41 + i.script.length := by
  obtain ⟨h32, -, -, -, -, -, -, -⟩ := h
  simp [encInput, uint32ToBytes, h32]
  omega

/-- The input loop of the parser reads back exactly what the serializer
wrote, leaving the offset at the end of the input section. -/
theorem parseInputs_spec (l : List TxInput) :
    ∀ (bs pre suffix : Bytes) (o : Nat), (∀ i ∈ l, WfInput i) →
    bs = pre ++ (encInputs l ++ suffix) → o = pre.length →
    parseInputs bs l.length (some o)
      = (l.map reprInput, some (pre.length + (encInputs l).length)) := by
  induction l with
  | nil => intro bs pre suffix o _ hbs ho; simp [parseInputs, encInputs, ho]
  | cons i l ih =>
      intro bs pre suffix o hwf hbs ho
      obtain ⟨hhash, -, hi0, hi1, hslen, -, hs0, hs1⟩ := hwf i (by simp)
      have hbs' : bs = pre ++ (i.hash ++ (uint32ToBytes i.index ++
          ([i.script.length] ++ (i.script ++ (uint32ToBytes i.sequence ++
            (encInputs l ++ suffix)))))) := by
        simpa [encInputs, encInput, List.append_assoc] using hbs
      simp only [parseInputs, List.length_cons, oadd_some]
      rw [sliceO_at bs pre i.hash
        (uint32ToBytes i.index ++ ([i.script.length] ++ (i.script ++
          (uint32ToBytes i.sequence ++ (encInputs l ++ suffix)))))
        o 32 (by simpa [List.append_assoc] using hbs') ho hhash.symm]
      rw [readU32_at bs (pre ++ i.hash)
        ([i.script.length] ++ (i.script ++ (uint32ToBytes i.sequence ++ (encInputs l ++ suffix))))
        i.index (o + 32)
        (by simp [hbs', List.append_assoc]) (by simp [ho, hhash]) hi0 hi1]
      rw [byteAt_at bs (pre ++ i.hash ++ uint32ToBytes i.index)
        (i.script ++ (uint32ToBytes i.sequence ++ (encInputs l ++ suffix)))
        i.script.length (o + 32 + 4)
        (by simp [hbs', List.append_assoc]) (by simp [ho, hhash, uint32ToBytes])]
      simp only [oaddO_some, oadd_some]
      rw [sliceO_at bs (pre ++ i.hash ++ uint32ToBytes i.index ++ [i.script.length]) i.script
        (uint32ToBytes i.sequence ++ (encInputs l ++ suffix))
        (o + 32 + 4 + 1) i.script.length
        (by simp [hbs', List.append_assoc]) (by simp [ho, hhash, uint32ToBytes]) rfl]
      rw [readU32_at bs
        (pre ++ i.hash ++ uint32ToBytes i.index ++ [i.script.length] ++ i.script)
        (encInputs l ++ suffix)
        i.sequence (o + 32 + 4 + 1 + i.script.length)
        (by simp [hbs', List.append_assoc]) (by simp [ho, hhash, uint32ToBytes] <;> omega) hs0 hs1]
      rw [ih bs (pre ++ encInput i) suffix (o + 32 + 4 + 1 + i.script.length + 4)
        (fun j hj => hwf j (by simp [hj]))
        (by simp [hbs, encInputs, List.append_assoc])
        (by simp [ho, encInput_length i (hwf i (by simp))]; omega)]
      simp [reprInput, encInputs, encInput_length i (hwf i (by simp))]
      omega

theorem encOutput_length (x : TxOutput) (h : WfOutput x) :
    (encOutput x).length = 9 + x.script.length := by
  obtain ⟨h8, -, -, -⟩ := h
  simp [encOutput, h8]
  omega

/-- The output loop of the parser reads back exactly what the serializer
wrote. -/
theorem parseOutputs_spec (l : List TxOutput) :
    ∀ (bs pre suffix : Bytes) (o : Nat), (∀ x ∈ l, WfOutput x) →
    bs = pre ++ (encOutputs l ++ suffix) → o = pre.length →
    parseOutputs bs l.length (some o)
      = (l, some (pre.length + (encOutputs l).length)) := by
  induction l with
  | nil => intro bs pre suffix o _ hbs ho; simp [parseOutputs, encOutputs, ho]
  | cons x l ih =>
      intro bs pre suffix o hwf hbs ho
      obtain ⟨hval, -, hslen, -⟩ := hwf x (by simp)
      have hbs' : bs = pre ++ (x.value ++
          ([x.script.length] ++ (x.script ++ (encOutputs l ++ suffix)))) := by
        simpa [encOutputs, encOutput, List.append_assoc] using hbs
      simp only [parseOutputs, List.length_cons, oadd_some]
      rw [sliceO_at bs pre x.value
        ([x.script.length] ++ (x.script ++ (encOutputs l ++ suffix)))
        o 8 (by simpa [List.append_assoc] using hbs') ho hval.symm]
      rw [byteAt_at bs (pre ++ x.value) (x.script ++ (encOutputs l ++ suffix))
        x.script.length (o + 8)
        (by simp [hbs', List.append_assoc]) (by simp [ho, hval])]
      simp only [oaddO_some, oadd_some]
      rw [sliceO_at bs (pre ++ x.value ++ [x.script.length]) x.script (encOutputs l ++ suffix)
        (o + 8 + 1) x.script.length
        (by simp [hbs', List.append_assoc]) (by simp [ho, hval]) rfl]
      rw [ih bs (pre ++ encOutput x) suffix (o + 8 + 1 + x.script.length)
        (fun j hj => hwf j (by simp [hj]))
        (by simp [hbs, encOutputs, List.append_assoc])
        (by simp [ho, encOutput_length x (hwf x (by simp))]; omega)]
      simp [encOutputs, encOutput_length x (hwf x (by simp))]
      omega

/-- Byte-level round trip: parsing what the serializer produced gives back
the transaction with every u32 field replaced by its signed-int32
representative. -/
theorem parseTransactionBytes_serialize (t : Tx) (h : WfTx t) :
    parseTransactionBytes (serializeTxData t) = reprTx t := by
  obtain ⟨hv0, hv1, hl0, hl1, hilen, holen, hwfi, hwfo⟩ := h
  have hbs : serializeTxData t = [] ++ (uint32ToBytes t.version ++
      ([t.inputs.length] ++ (encInputs t.inputs ++ ([t.outputs.length] ++
        (encOutputs t.outputs ++ (uint32ToBytes t.locktime ++ [])))))) := by
    simp [serializeTxData_eq, encInputs, encOutputs, List.append_assoc]
  simp only [parseTransactionBytes]
  rw [readU32_at (serializeTxData t) []
    ([t.inputs.length] ++ (encInputs t.inputs ++ ([t.outputs.length] ++
      (encOutputs t.outputs ++ (uint32ToBytes t.locktime ++ [])))))
    t.version 0 (by simpa using hbs) rfl hv0 hv1]
  rw [byteAt_at (serializeTxData t) (uint32ToBytes t.version)
    (encInputs t.inputs ++ ([t.outputs.length] ++
      (encOutputs t.outputs ++ (uint32ToBytes t.locktime ++ []))))
    t.inputs.length 4 (by simpa [List.append_assoc] using hbs) (by simp [uint32ToBytes])]
  simp only [Option.getD_some]
  rw [parseInputs_spec t.inputs (serializeTxData t)
    (uint32ToBytes t.version ++ [t.inputs.length])
    ([t.outputs.length] ++ (encOutputs t.outputs ++ (uint32ToBytes t.locktime ++ [])))
    5 hwfi (by simpa [List.append_assoc] using hbs) (by simp [uint32ToBytes])]
  dsimp only
  rw [byteAt_at (serializeTxData t)
    (uint32ToBytes t.version ++ [t.inputs.length] ++ encInputs t.inputs)
    (encOutputs t.outputs ++ (uint32ToBytes t.locktime ++ []))
    t.outputs.length
    ((uint32ToBytes t.version ++ [t.inputs.length]).length + (encInputs t.inputs).length)
    (by simp [hbs, List.append_assoc])
    (by simp only [List.length_append, List.length_cons, List.length_nil])]
  simp only [Option.getD_some, oadd_some]
  rw [parseOutputs_spec t.outputs (serializeTxData t)
    (uint32ToBytes t.version ++ [t.inputs.length] ++ encInputs t.inputs ++ [t.outputs.length])
    (uint32ToBytes t.locktime ++ [])
    ((uint32ToBytes t.version ++ [t.inputs.length]).length + (encInputs t.inputs).length + 1)
    hwfo (by simp [hbs, List.append_assoc])
    (by simp only [List.length_append, List.length_cons, List.length_nil])]
  dsimp only
  rw [readU32_at (serializeTxData t)
    (uint32ToBytes t.version ++ [t.inputs.length] ++ encInputs t.inputs ++
      [t.outputs.length] ++ encOutputs t.outputs)
    [] t.locktime
    ((uint32ToBytes t.version ++ [t.inputs.length] ++ encInputs t.inputs ++
      [t.outputs.length]).length + (encOutputs t.outputs).length)
    (by simp [hbs, List.append_assoc])
    (by simp only [List.length_append, List.length_cons, List.length_nil]) hl0 hl1]
  rfl

theorem serializeTxData_bytes (t : Tx) (h : WfTx t) :
    ∀ b ∈ serializeTxData t, b < 256 := by
  obtain ⟨hv0, hv1, hl0, hl1, hilen, holen, hwfi, hwfo⟩ := h
  have hu32 : ∀ (v : Int), ∀ b ∈ uint32ToBytes v, b < 256 := by
    intro v b hb
    simp only [uint32ToBytes, List.mem_cons, List.not_mem_nil, or_false] at hb
    rcases hb with h | h | h | h <;> omega
  intro b hb
  rw [serializeTxData_eq] at hb
  simp only [List.mem_append, List.mem_cons, List.not_mem_nil, or_false,
    List.mem_flatMap] at hb
  rcases hb with ((((hb | hb) | ⟨i, hi, hb⟩) | hb) | ⟨x, hx, hb⟩) | hb
  · exact hu32 _ _ hb
  · omega
  · obtain ⟨h32, hhb, -, -, hsl, hsb, -, -⟩ := hwfi i hi
    simp only [encInput, List.mem_append, List.mem_cons, List.not_mem_nil, or_false] at hb
    rcases hb with (((hb | hb) | hb) | hb) | hb
    · exact hhb b hb
    · exact hu32 _ _ hb
    · omega
    · exact hsb b hb
    · exact hu32 _ _ hb
  · omega
  · obtain ⟨h8, hvb, hsl, hsb⟩ := hwfo x hx
    simp only [encOutput, List.mem_append, List.mem_cons, List.not_mem_nil, or_false] at hb
    rcases hb with (hb | hb) | hb
    · exact hvb b hb
    · omega
    · exact hsb b hb
  · exact hu32 _ _ hb

theorem map_mod_id (bs : Bytes) (h : ∀ b ∈ bs, b < 256) : bs.map (· % 256) = bs := by
  induction bs with
  | nil => rfl
  | cons b l ih =>
      have hb : b % 256 = b := Nat.mod_eq_of_lt (h b (by simp))
      simp [hb, ih fun x hx => h x (by simp [hx])]

/-- C2 (amended): for every transaction `t` whose counts and per-script
lengths fit in one byte and whose integer fields are u32 values,
`parseTransaction (serializeTransaction t)` equals `t` field for field
**after reducing each u32 field to its signed-int32 representative** —
`readUInt32LE` builds the value with JavaScript `|`/`<<`, so a field with the
high bit set (e.g. sequence `0xFFFFFFFF`) parses back as a negative int32,
not as the original u32.  Exact equality holds iff every integer field is
below `2^31`. -/
theorem parseTransaction_serializeTransaction (t : Tx) (h : WfTx t) :
    parseTransaction (serializeTransaction t) = reprTx t := by
  rw [parseTransaction, serializeTransaction, map_mod_id _ (serializeTxData_bytes t h),
    hexToBytes_bytesToHex _ (serializeTxData_bytes t h),
    parseTransactionBytes_serialize t h]

/-! ## Wallet state machine (`src/background/background.js`)

Platform effects (random key generation, address derivation, encryption,
decryption) are inputs of the transition functions: the caller supplies the
value the platform produced (`none` for a decryption failure).  `chrome.storage`
writes do not affect the in-memory state and are omitted. -/

/-- One account (`{name, address, encryptedPrivateKey}`). -/
structure Account where
  name : String
  address : String
  encryptedPrivateKey : String
deriving DecidableEq

/-- The in-memory `walletState` object (background.js lines 33-38). -/
structure WalletState where
  isUnlocked : Bool
  currentAccountIndex : Int
  accounts : List Account
  currentPrivateKey : Option String
deriving DecidableEq

/-- The initial `walletState`. -/
def initialWalletState : WalletState :=
  { isUnlocked := false, currentAccountIndex := 0, accounts := [], currentPrivateKey := none }

/-- JavaScript truthiness of an optional string (`undefined` and `""` are
falsy). -/
def jsTruthy (p : Option String) : Bool :=
  match p with
  | none => false
  | some x => !x.isEmpty

/-- `handleCreateWallet` (lines 182-234): validates the password, appends the
new account, selects it, stores the raw key as its **hex** encoding (the
value `generatePrivateKey` returns) and marks the wallet unlocked.  On a
validation error the state is unchanged.  `keyBytes` are the 32 random bytes
drawn by `generatePrivateKey`; `address`/`encPriv` are the platform-derived
address and encrypted blob. -/
def handleCreateWallet (s : WalletState) (password : String) (keyBytes : Bytes)
    (address encPriv : String) : WalletState :=
  if password.length < 8 then s
  else
    let accountName := "Account " ++ toString (s.accounts.length + 1)
    let accounts := s.accounts ++ [⟨accountName, address, encPriv⟩]
    { isUnlocked := true
      currentAccountIndex := (accounts.length : Int) - 1
      accounts := accounts
      currentPrivateKey := some (bytesToHex keyBytes) }

/-- `handleImportWallet` (lines 239-300): validates password length, address
presence, WIF length (51 or 52) and address uniqueness, then appends and
selects the account, keeping the caller's WIF as the in-memory key. -/
def handleImportWallet (s : WalletState) (address privateKey password encPriv : String) :
    WalletState :=
  if password.length < 8 then s
  else if address = "" then s
  else if privateKey.length ≠ 51 ∧ privateKey.length ≠ 52 then s
  else if s.accounts.any (fun a => a.address = address) then s
  else
    let accountName := "Account " ++ toString (s.accounts.length + 1)
    let accounts := s.accounts ++ [⟨accountName, address, encPriv⟩]
    { isUnlocked := true
      currentAccountIndex := (accounts.length : Int) - 1
      accounts := accounts
      currentPrivateKey := some privateKey }

/-- `handleUnlockWallet` (lines 305-335): requires an account; on decryption
success stores the key and unlocks, on failure leaves the state unchanged. -/
def handleUnlockWallet (s : WalletState) (decrypted : Option String) : WalletState :=
  if s.accounts.length = 0 then s
  else
    match decrypted with
    | some pk => { s with currentPrivateKey := some pk, isUnlocked := true }
    | none => s

/-- `handleLockWallet` (lines 340-345). -/
def handleLockWallet (s : WalletState) : WalletState :=
  { s with currentPrivateKey := none, isUnlocked := false }

/-- `handleSwitchAccount` (lines 350-386): index-validated; with a (truthy)
password it adopts the account unlocked (state untouched if decryption
throws), otherwise adopts it locked. -/
def handleSwitchAccount (s : WalletState) (accountIndex : Int) (password : Option String)
    (decrypted : Option String) : WalletState :=
  if accountIndex < 0 ∨ (s.accounts.length : Int) ≤ accountIndex then s
  else if jsTruthy password then
    match decrypted with
    | none => s
    | some pk =>
        { s with currentPrivateKey := some pk, isUnlocked := true,
                 currentAccountIndex := accountIndex }
  else
    { s with currentPrivateKey := none, isUnlocked := false,
             currentAccountIndex := accountIndex }

/-- Overwrite the name of the account at an index. -/
def renameAt : List Account → Nat → String → List Account
  | [], _, _ => []
  | a :: l, 0, nm => { a with name := nm } :: l
  | a :: l, n + 1, nm => a :: renameAt l n nm

/-- `handleRenameAccount` (lines 408-432). -/
def handleRenameAccount (s : WalletState) (accountIndex : Int) (newName : String) :
    WalletState :=
  if accountIndex < 0 ∨ (s.accounts.length : Int) ≤ accountIndex then s
  else if newName.trim = "" then s
  else { s with accounts := renameAt s.accounts accountIndex.toNat newName.trim }

/-- `handleDeleteAccount` (lines 437-474), with the response made explicit:
refuses to delete the last account or an out-of-range index (state
unchanged); otherwise removes the account, adjusts the current index
(`if (currentAccountIndex >= accountIndex) currentAccountIndex =
Math.max(0, currentAccountIndex - 1)`) and locks the wallet. -/
def deleteAccountResult (s : WalletState) (accountIndex : Int) :
    Except String WalletState :=
  if s.accounts.length = 1 then .error "Cannot delete the only account"
  else if accountIndex < 0 ∨ (s.accounts.length : Int) ≤ accountIndex then
    .error "Invalid account index"
  else
    .ok { isUnlocked := false
          currentPrivateKey := none
          accounts := s.accounts.eraseIdx accountIndex.toNat
          currentAccountIndex :=
            if accountIndex ≤ s.currentAccountIndex then max 0 (s.currentAccountIndex - 1)
            else s.currentAccountIndex }

/-- The state effect of `handleDeleteAccount` (errors leave the state as it
was). -/
def handleDeleteAccount (s : WalletState) (accountIndex : Int) : WalletState :=
  match deleteAccountResult s accountIndex with
  | .ok t => t
  | .error _ => s

/-- One entry of the pending-request table. -/
structure SignRequest where
  unsignedTx : String
  details : String
deriving DecidableEq

/-- The `pendingSignRequests` map, as an insertion-ordered association list. -/
abbrev PendingTable := List (String × SignRequest)

/-- `Map.prototype.set`: replace an existing binding or append a new one. -/
def tableSet : PendingTable → String → SignRequest → PendingTable
  | [], k, v => [(k, v)]
  | (k₀, v₀) :: rest, k, v =>
      if k₀ = k then (k, v) :: rest else (k₀, v₀) :: tableSet rest k v

/-- `handleSignTransactionRequest` (lines 479-529): when the wallet is locked
it fails immediately and registers nothing; otherwise it stores the pending
request under its `requestId`. -/
def handleSignTransactionRequest (s : WalletState) (tbl : PendingTable)
    (requestId unsignedTx details : String) : Except String Unit × PendingTable :=
  if s.isUnlocked = false then
    (.error "Wallet is locked. Please unlock it first.", tbl)
  else
    (.ok (), tableSet tbl requestId ⟨unsignedTx, details⟩)

/-- The key material handed to the signing engine by the approve path:
`signTransactionLocally` (lines 588-616) passes `walletState.currentPrivateKey`
verbatim to `BitcoinSigner.signTransaction` (bitcoin-simple.js lines 50-73),
whose first step is `decodeWIF`. -/
def keyMaterialReachingSigner (s : WalletState) : Except String Bytes :=
  if s.isUnlocked = false ∨ jsTruthy s.currentPrivateKey = false then
    .error "Wallet is locked. Please unlock first."
  else decodeWIF (s.currentPrivateKey.getD "")

/-- The wallet operations of the command surface, with the platform effects
each one consumed attached as data. -/
inductive WalletOp where
  | create (password : String) (keyBytes : Bytes) (address encPriv : String)
  | importW (address privateKey password encPriv : String)
  | unlock (decrypted : Option String)
  | lock
  | switch (accountIndex : Int) (password : Option String) (decrypted : Option String)
  | rename (accountIndex : Int) (newName : String)
  | delete (accountIndex : Int)
  | sign (requestId unsignedTx details : String)

/-- The state transition of each operation (the signing-request handler never
mutates `walletState`, it only touches the pending table). -/
def applyOp (op : WalletOp) (s : WalletState) : WalletState :=
  match op with
  | .create pw kb addr enc => handleCreateWallet s pw kb addr enc
  | .importW addr pk pw enc => handleImportWallet s addr pk pw enc
  | .unlock dec => handleUnlockWallet s dec
  | .lock => handleLockWallet s
  | .switch idx pw dec => handleSwitchAccount s idx pw dec
  | .rename idx nm => handleRenameAccount s idx nm
  | .delete idx => handleDeleteAccount s idx
  | .sign _ _ _ => s

/-- The `WalletState` invariant of the specification. -/
def WalletInv (s : WalletState) : Prop :=
  (s.accounts ≠ [] → 0 ≤ s.currentAccountIndex ∧
    s.currentAccountIndex < s.accounts.length) ∧
  (s.currentPrivateKey ≠ none ↔ s.isUnlocked = true)

theorem renameAt_length (l : List Account) (n : Nat) (nm : String) :
    (renameAt l n nm).length = l.length := by
  induction l generalizing n with
  | nil => rfl
  | cons a l ih => cases n with
      | zero => rfl
      | succ n => simp [renameAt, ih]

theorem eraseIdx_length (l : List Account) (i : Nat) (h : i < l.length) :
    (l.eraseIdx i).length = l.length - 1 := by
  induction l generalizing i with
  | nil => simp at h
  | cons a l ih =>
      cases i with
      | zero => simp [List.eraseIdx]
      | succ i =>
          have := ih i (by simpa using h)
          simp only [List.eraseIdx, List.length_cons, this]
          have : i < l.length := by simpa using h
          omega

/-- A handier phrasing of the invariant in terms of list lengths. -/
theorem walletInv_iff (s : WalletState) :
    WalletInv s ↔
      ((s.accounts.length ≠ 0 → 0 ≤ s.currentAccountIndex ∧
        s.currentAccountIndex < s.accounts.length) ∧
       (s.currentPrivateKey ≠ none ↔ s.isUnlocked = true)) := by
  unfold WalletInv
  constructor
  · rintro ⟨h₁, h₂⟩
    exact ⟨fun hl => h₁ (fun he => hl (by simp [he])), h₂⟩
  · rintro ⟨h₁, h₂⟩
    exact ⟨fun hne => h₁ (fun hl => hne (List.length_eq_zero.mp hl)), h₂⟩

/-- C7: every wallet operation (create, import, unlock, lock, switch,
rename, delete, sign) preserves the `WalletState` invariant: the current
index is in range whenever accounts exist, and the in-memory secret is
present iff the wallet is unlocked. -/
theorem applyOp_preserves_walletInv (op : WalletOp) (s : WalletState)
    (h : WalletInv s) : WalletInv (applyOp op s) := by
  rw [walletInv_iff] at h ⊢
  obtain ⟨hidx, hkey⟩ := h
  cases op with
  | create pw kb addr enc =>
      simp only [applyOp, handleCreateWallet]
      split
      · exact ⟨hidx, hkey⟩
      · refine ⟨fun _ => ?_, by simp⟩
        simp only [List.length_append, List.length_cons, List.length_nil]
        omega
  | importW addr pk pw enc =>
      simp only [applyOp, handleImportWallet]
      split
      · exact ⟨hidx, hkey⟩
      split
      · exact ⟨hidx, hkey⟩
      split
      · exact ⟨hidx, hkey⟩
      split
      · exact ⟨hidx, hkey⟩
      · refine ⟨fun _ => ?_, by simp⟩
        simp only [List.length_append, List.length_cons, List.length_nil]
        omega
  | unlock dec =>
      simp only [applyOp, handleUnlockWallet]
      split
      · exact ⟨hidx, hkey⟩
      · cases dec with
        | none => exact ⟨hidx, hkey⟩
        | some pk => exact ⟨hidx, by simp⟩
  | lock => exact ⟨hidx, by simp [applyOp, handleLockWallet]⟩
  | switch idx pw dec =>
      simp only [applyOp, handleSwitchAccount]
      split
      · exact ⟨hidx, hkey⟩
      split
      · cases dec with
        | none => exact ⟨hidx, hkey⟩
        | some pk =>
            rename_i hrange _
            refine ⟨fun _ => ?_, by simp⟩
            simp only
            omega
      · rename_i hrange _
        refine ⟨fun _ => ?_, by simp⟩
        simp only
        omega
  | rename idx nm =>
      simp only [applyOp, handleRenameAccount]
      split
      · exact ⟨hidx, hkey⟩
      split
      · exact ⟨hidx, hkey⟩
      · exact ⟨by simpa [renameAt_length] using hidx, hkey⟩
  | delete idx =>
      simp only [applyOp, handleDeleteAccount]
      split
      · rename_i t heq
        rw [deleteAccountResult] at heq
        split at heq
        · cases heq
        · split at heq
          · cases heq
          · rename_i hlen hrange
            cases heq
            have hlenpos : s.accounts.length ≠ 0 := fun h0 => hrange (by omega)
            obtain ⟨hc0, hc1⟩ := hidx hlenpos
            have hidxlt : idx.toNat < s.accounts.length := by omega
            refine ⟨fun _ => ?_, by simp⟩
            simp only [eraseIdx_length s.accounts idx.toNat hidxlt]
            split <;> omega
      · exact ⟨hidx, hkey⟩
  | sign rid tx det => exact ⟨hidx, hkey⟩

/-! ## Credential vault (`Encryption` class, `bitcoin-simple.js` lines 410-511)

The cryptographic work is done by Web Crypto platform primitives that are not
part of the repository (`crypto.subtle` PBKDF2-HMAC-SHA256 with 100,000
iterations and AES-256-GCM, `TextEncoder`/`TextDecoder`, `btoa`/`atob`).
Modelled from the spec: those primitives are an abstract `Platform` record;
the blob layout, slicing and control flow below are the source's own. -/

/-- The platform primitives the vault calls out to. `kdf password salt` is
the derived AES key (PBKDF2-HMAC-SHA256, 100,000 iterations in the source);
`aesDec` returns `none` when the GCM tag does not verify. -/
structure Platform where
  kdf : String → Bytes → Bytes
  aesEnc : Bytes → Bytes → Bytes → Bytes
  aesDec : Bytes → Bytes → Bytes → Option Bytes
  utf8Enc : String → Bytes
  utf8Dec : Bytes → String
  btoa : Bytes → String
  atob : String → Bytes

/-- `Encryption.encrypt`: blob = base64(salt ‖ iv ‖ ciphertext).  The fresh
16-byte salt and 12-byte nonce drawn by `crypto.getRandomValues` are inputs. -/
def Encryption.encrypt (pf : Platform) (salt iv : Bytes) (data password : String) : String :=
  pf.btoa (salt ++ iv ++ pf.aesEnc (pf.kdf password salt) iv (pf.utf8Enc data))

/-- `Encryption.decrypt`: split the blob as `salt = enc.slice(0, 16)`,
`iv = enc.slice(16, 28)`, `data = enc.slice(28)`, re-derive the key and
authenticate-decrypt; a tag failure is the uniform error message. -/
def Encryption.decrypt (pf : Platform) (encryptedBase64 password : String) :
    Except String String :=
  let enc := pf.atob encryptedBase64
  let salt := jsSlice enc 0 16
  let iv := jsSlice enc 16 28
  let data := enc.drop 28
  match pf.aesDec (pf.kdf password salt) iv data with
  | some decrypted => .ok (pf.utf8Dec decrypted)
  | none => .error "Incorrect password or corrupted data"

theorem jsSlice_prefix (a b : Bytes) : jsSlice (a ++ b) 0 a.length = a := by
  have := take_append_len a b 0
  simp only [Nat.add_zero, List.take_zero, List.append_nil] at this
  simp [jsSlice, this]

theorem jsSlice_middle (a b c : Bytes) :
    jsSlice (a ++ (b ++ c)) a.length (a.length + b.length) = b := by
  rw [jsSlice, ← List.append_assoc,
    show a.length + b.length = (a ++ b).length + 0 by simp,
    take_append_len (a ++ b) c 0]
  simp [drop_append_len]

/-- C6: `decrypt(encrypt(x, p), p) = x` — the salt(16) ‖ nonce(12) ‖
ciphertext blob layout produced by `encrypt` is parsed back by `decrypt`, the
key is re-derived from the same password and the recovered salt, and
authenticated decryption returns the original plaintext.  The platform
primitives (PBKDF2, AES-GCM, TextEncoder/Decoder, btoa/atob) are abstract;
the hypotheses are exactly their contracts at the blob in question. -/
theorem decrypt_encrypt (pf : Platform) (salt iv : Bytes) (x p : String)
    (hsalt : salt.length = 16) (hiv : iv.length = 12)
    (hb64 : pf.atob (pf.btoa (salt ++ iv ++ pf.aesEnc (pf.kdf p salt) iv (pf.utf8Enc x)))
      = salt ++ iv ++ pf.aesEnc (pf.kdf p salt) iv (pf.utf8Enc x))
    (haes : pf.aesDec (pf.kdf p salt) iv (pf.aesEnc (pf.kdf p salt) iv (pf.utf8Enc x))
      = some (pf.utf8Enc x))
    (hutf : pf.utf8Dec (pf.utf8Enc x) = x) :
    Encryption.decrypt pf (Encryption.encrypt pf salt iv x p) p = .ok x := by
  rw [Encryption.decrypt, Encryption.encrypt]
  simp only [hb64]
  have h₁ : jsSlice (salt ++ iv ++ pf.aesEnc (pf.kdf p salt) iv (pf.utf8Enc x)) 0 16
      = salt := by
    have := jsSlice_prefix salt (iv ++ pf.aesEnc (pf.kdf p salt) iv (pf.utf8Enc x))
    rw [hsalt] at this
    simpa [List.append_assoc] using this
  have h₂ : jsSlice (salt ++ iv ++ pf.aesEnc (pf.kdf p salt) iv (pf.utf8Enc x)) 16 28
      = iv := by
    have := jsSlice_middle salt iv (pf.aesEnc (pf.kdf p salt) iv (pf.utf8Enc x))
    rw [hsalt, hiv] at this
    simpa [List.append_assoc] using this
  have h₃ : (salt ++ iv ++ pf.aesEnc (pf.kdf p salt) iv (pf.utf8Enc x)).drop 28
      = pf.aesEnc (pf.kdf p salt) iv (pf.utf8Enc x) := by
    have := drop_append_len (salt ++ iv) (pf.aesEnc (pf.kdf p salt) iv (pf.utf8Enc x))
    rw [List.length_append, hsalt, hiv] at this
    simpa [List.append_assoc] using this
  rw [h₁, h₂, h₃, haes]
  simp [hutf]

/-! ## A kernel-evaluable modular exponentiation

The ECDSA analysis below instantiates `ZMod` at the secp256k1 group order;
establishing that this 256-bit modulus is prime needs Fermat/Lucas
exponentiations that the kernel can actually evaluate, hence a fuel-driven
binary power. -/

/-- Binary modular exponentiation with explicit fuel. -/
def powAux (m : Nat) : Nat → Nat → Nat → Nat → Nat
  | 0, _, _, acc => acc
  | fuel + 1, b, e, acc =>
      if e = 0 then acc
      else powAux m fuel (b * b % m) (e / 2) (if e % 2 = 1 then acc * b % m else acc)

/-- `a ^ e mod m`, computable by the kernel in `O(log e)` steps. -/
def powM (m a e : Nat) : Nat := powAux m 300 (a % m) e (1 % m)

theorem powAux_spec (m : Nat) (hm : 0 < m) :
    ∀ (fuel b e acc : Nat), e < 2 ^ fuel → b < m → acc < m →
      powAux m fuel b e acc = acc * b ^ e % m := by
  intro fuel
  induction fuel with
  | zero =>
      intro b e acc he hb hacc
      have he0 : e = 0 := by simpa using he
      simp [powAux, he0, Nat.mod_eq_of_lt hacc]
  | succ fuel ih =>
      intro b e acc he hb hacc
      rw [powAux]
      split
      · rename_i h0
        simp [h0, Nat.mod_eq_of_lt hacc]
      · rename_i h0
        have hpow : 2 ^ (fuel + 1) = 2 ^ fuel * 2 := pow_succ 2 fuel
        have hrec := ih (b * b % m) (e / 2) (if e % 2 = 1 then acc * b % m else acc)
          (by omega) (Nat.mod_lt _ hm)
          (by split
              · exact Nat.mod_lt _ hm
              · exact hacc)
        rw [hrec]
        have hx : (if e % 2 = 1 then acc * b % m else acc) ≡ acc * b ^ (e % 2) [MOD m] := by
          split
          · rename_i h1
            rw [h1, pow_one]
            exact (Nat.mod_modEq _ m)
          · rename_i h1
            have h2 : e % 2 = 0 := by omega
            rw [h2, pow_zero, mul_one]
        have hy : (b * b % m) ^ (e / 2) ≡ (b * b) ^ (e / 2) [MOD m] :=
          (Nat.mod_modEq (b * b) m).pow _
        have key : (if e % 2 = 1 then acc * b % m else acc) * (b * b % m) ^ (e / 2)
            ≡ acc * b ^ e [MOD m] := by
          calc (if e % 2 = 1 then acc * b % m else acc) * (b * b % m) ^ (e / 2)
              ≡ (acc * b ^ (e % 2)) * (b * b) ^ (e / 2) [MOD m] := hx.mul hy
            _ = acc * b ^ e := by
                rw [show b * b = b ^ 2 from (pow_two b).symm, ← pow_mul, mul_assoc, ← pow_add]
                congr 2
                omega
        exact key

theorem powM_eq (m a e : Nat) (hm : 0 < m) (he : e < 2 ^ 300) :
    powM m a e = a ^ e % m := by
  rw [powM, powAux_spec m hm 300 (a % m) e (1 % m) he (Nat.mod_lt _ hm) (Nat.mod_lt _ hm)]
  have h : (1 % m) * (a % m) ^ e ≡ 1 * a ^ e [MOD m] :=
    (Nat.mod_modEq 1 m).mul ((Nat.mod_modEq a m).pow e)
  unfold Nat.ModEq at h
  rw [one_mul] at h
  exact h

/-- Transfer a `powM` computation into `ZMod q`. -/
theorem zmod_pow_of_powM (q a e : Nat) (hq : 1 < q) (he : e < 2 ^ 300) :
    ((a : ZMod q)) ^ e = ((powM q a e : Nat) : ZMod q) := by
  rw [powM_eq q a e (by omega) he, ZMod.natCast_mod, Nat.cast_pow]

theorem zmod_pow_eq_one_of_powM (q a e : Nat) (hq : 1 < q) (he : e < 2 ^ 300)
    (h : powM q a e = 1) : ((a : Nat) : ZMod q) ^ e = 1 := by
  rw [zmod_pow_of_powM q a e hq he, h, Nat.cast_one]

theorem zmod_pow_ne_one_of_powM (q a e c : Nat) (hq : 1 < q) (he : e < 2 ^ 300)
    (h : powM q a e = c) (hc1 : c ≠ 1) (hcq : c < q) :
    ((a : Nat) : ZMod q) ^ e ≠ 1 := by
  haveI : NeZero q := ⟨by omega⟩
  haveI : Fact (1 < q) := ⟨hq⟩
  rw [zmod_pow_of_powM q a e hq he, h]
  intro hcontra
  have hval : ((c : ZMod q)).val = (1 : ZMod q).val := by rw [hcontra]
  rw [ZMod.val_cast_of_lt hcq, ZMod.val_one q] at hval
  exact hc1 hval

theorem prime_dvd_split (r a b : Nat) (hr : r.Prime) (h : r ∣ a * b) :
    r ∣ a ∨ r ∣ b := (Nat.Prime.dvd_mul hr).mp h

theorem prime_dvd_pow_prime (r p e : Nat) (hr : r.Prime) (hp : p.Prime)
    (h : r ∣ p ^ e) : r = p :=
  (Nat.prime_dvd_prime_iff_eq hr hp).mp (hr.dvd_of_dvd_pow h)

/-! ## Primality of the secp256k1 group order

`n = 0xFFFFFFFFFFFFFFFFFFFFFFFFFFFFFFFEBAAEDCE6AF48A03BBFD25E8CD0364141` is
the order of the secp256k1 base point; the ECDSA model below works in
`ZMod n`.  Its primality is established by a chain of Lucas certificates
(`lucas_primality`), with every Fermat exponentiation evaluated through
`powM`. -/

set_option maxRecDepth 40000


/-- Lucas certificate: `1409` is prime (witness `3`). -/
theorem prime1409 : Nat.Prime 1409 := by
  have hfac : 1409 - 1 = 2 ^ 7 * (11) := by norm_num
  refine lucas_primality 1409 ((3 : Nat) : ZMod 1409) ?_ ?_
  · exact zmod_pow_eq_one_of_powM 1409 3 (1409 - 1) (by norm_num) (by norm_num)
      (by decide)
  · intro r hr hdvd
    rw [hfac] at hdvd
    rcases prime_dvd_split r _ _ hr hdvd with h | h
    · rw [prime_dvd_pow_prime r 2 7 hr (by norm_num : Nat.Prime 2) h]
      exact zmod_pow_ne_one_of_powM 1409 3 ((1409 - 1) / 2) 1408 (by norm_num)
        (by norm_num) (by decide) (by norm_num) (by norm_num)
    · rw [prime_dvd_pow_prime r 11 1 hr (by norm_num : Nat.Prime 11) h]
      exact zmod_pow_ne_one_of_powM 1409 3 ((1409 - 1) / 11) 992 (by norm_num)
        (by norm_num) (by decide) (by norm_num) (by norm_num)

/-- Lucas certificate: `1871` is prime (witness `14`). -/
theorem prime1871 : Nat.Prime 1871 := by
  have hfac : 1871 - 1 = 2 * (5 * (11 * (17))) := by norm_num
  refine lucas_primality 1871 ((14 : Nat) : ZMod 1871) ?_ ?_
  · exact zmod_pow_eq_one_of_powM 1871 14 (1871 - 1) (by norm_num) (by norm_num)
      (by decide)
  · intro r hr hdvd
    rw [hfac] at hdvd
    rcases prime_dvd_split r _ _ hr hdvd with h | h
    · rw [prime_dvd_pow_prime r 2 1 hr (by norm_num : Nat.Prime 2) h]
      exact zmod_pow_ne_one_of_powM 1871 14 ((1871 - 1) / 2) 1870 (by norm_num)
        (by norm_num) (by decide) (by norm_num) (by norm_num)
    rcases prime_dvd_split r _ _ hr h with h | h
    · rw [prime_dvd_pow_prime r 5 1 hr (by norm_num : Nat.Prime 5) h]
      exact zmod_pow_ne_one_of_powM 1871 14 ((1871 - 1) / 5) 932 (by norm_num)
        (by norm_num) (by decide) (by norm_num) (by norm_num)
    rcases prime_dvd_split r _ _ hr h with h | h
    · rw [prime_dvd_pow_prime r 11 1 hr (by norm_num : Nat.Prime 11) h]
      exact zmod_pow_ne_one_of_powM 1871 14 ((1871 - 1) / 11) 1838 (by norm_num)
        (by norm_num) (by decide) (by norm_num) (by norm_num)
    · rw [prime_dvd_pow_prime r 17 1 hr (by norm_num : Nat.Prime 17) h]
      exact zmod_pow_ne_one_of_powM 1871 14 ((1871 - 1) / 17) 81 (by norm_num)
        (by norm_num) (by decide) (by norm_num) (by norm_num)

/-- Lucas certificate: `2011` is prime (witness `3`). -/
theorem prime2011 : Nat.Prime 2011 := by
  have hfac : 2011 - 1 = 2 * (3 * (5 * (67))) := by norm_num
  refine lucas_primality 2011 ((3 : Nat) : ZMod 2011) ?_ ?_
  · exact zmod_pow_eq_one_of_powM 2011 3 (2011 - 1) (by norm_num) (by norm_num)
      (by decide)
  · intro r hr hdvd
    rw [hfac] at hdvd
    rcases prime_dvd_split r _ _ hr hdvd with h | h
    · rw [prime_dvd_pow_prime r 2 1 hr (by norm_num : Nat.Prime 2) h]
      exact zmod_pow_ne_one_of_powM 2011 3 ((2011 - 1) / 2) 2010 (by norm_num)
        (by norm_num) (by decide) (by norm_num) (by norm_num)
    rcases prime_dvd_split r _ _ hr h with h | h
    · rw [prime_dvd_pow_prime r 3 1 hr (by norm_num : Nat.Prime 3) h]
      exact zmod_pow_ne_one_of_powM 2011 3 ((2011 - 1) / 3) 205 (by norm_num)
        (by norm_num) (by decide) (by norm_num) (by norm_num)
    rcases prime_dvd_split r _ _ hr h with h | h
    · rw [prime_dvd_pow_prime r 5 1 hr (by norm_num : Nat.Prime 5) h]
      exact zmod_pow_ne_one_of_powM 2011 3 ((2011 - 1) / 5) 1328 (by norm_num)
        (by norm_num) (by decide) (by norm_num) (by norm_num)
    · rw [prime_dvd_pow_prime r 67 1 hr (by norm_num : Nat.Prime 67) h]
      exact zmod_pow_ne_one_of_powM 2011 3 ((2011 - 1) / 67) 1116 (by norm_num)
        (by norm_num) (by decide) (by norm_num) (by norm_num)

/-- Lucas certificate: `2731` is prime (witness `3`). -/
theorem prime2731 : Nat.Prime 2731 := by
  have hfac : 2731 - 1 = 2 * (3 * (5 * (7 * (13)))) := by norm_num
  refine lucas_primality 2731 ((3 : Nat) : ZMod 2731) ?_ ?_
  · exact zmod_pow_eq_one_of_powM 2731 3 (2731 - 1) (by norm_num) (by norm_num)
      (by decide)
  · intro r hr hdvd
    rw [hfac] at hdvd
    rcases prime_dvd_split r _ _ hr hdvd with h | h
    · rw [prime_dvd_pow_prime r 2 1 hr (by norm_num : Nat.Prime 2) h]
      exact zmod_pow_ne_one_of_powM 2731 3 ((2731 - 1) / 2) 2730 (by norm_num)
        (by norm_num) (by decide) (by norm_num) (by norm_num)
    rcases prime_dvd_split r _ _ hr h with h | h
    · rw [prime_dvd_pow_prime r 3 1 hr (by norm_num : Nat.Prime 3) h]
      exact zmod_pow_ne_one_of_powM 2731 3 ((2731 - 1) / 3) 2284 (by norm_num)
        (by norm_num) (by decide) (by norm_num) (by norm_num)
    rcases prime_dvd_split r _ _ hr h with h | h
    · rw [prime_dvd_pow_prime r 5 1 hr (by norm_num : Nat.Prime 5) h]
      exact zmod_pow_ne_one_of_powM 2731 3 ((2731 - 1) / 5) 1633 (by norm_num)
        (by norm_num) (by decide) (by norm_num) (by norm_num)
    rcases prime_dvd_split r _ _ hr h with h | h
    · rw [prime_dvd_pow_prime r 7 1 hr (by norm_num : Nat.Prime 7) h]
      exact zmod_pow_ne_one_of_powM 2731 3 ((2731 - 1) / 7) 1238 (by norm_num)
        (by norm_num) (by decide) (by norm_num) (by norm_num)
    · rw [prime_dvd_pow_prime r 13 1 hr (by norm_num : Nat.Prime 13) h]
      exact zmod_pow_ne_one_of_powM 2731 3 ((2731 - 1) / 13) 1024 (by norm_num)
        (by norm_num) (by decide) (by norm_num) (by norm_num)

/-- Lucas certificate: `2861` is prime (witness `2`). -/
theorem prime2861 : Nat.Prime 2861 := by
  have hfac : 2861 - 1 = 2 ^ 2 * (5 * (11 * (13))) := by norm_num
  refine lucas_primality 2861 ((2 : Nat) : ZMod 2861) ?_ ?_
  · exact zmod_pow_eq_one_of_powM 2861 2 (2861 - 1) (by norm_num) (by norm_num)
      (by decide)
  · intro r hr hdvd
    rw [hfac] at hdvd
    rcases prime_dvd_split r _ _ hr hdvd with h | h
    · rw [prime_dvd_pow_prime r 2 2 hr (by norm_num : Nat.Prime 2) h]
      exact zmod_pow_ne_one_of_powM 2861 2 ((2861 - 1) / 2) 2860 (by norm_num)
        (by norm_num) (by decide) (by norm_num) (by norm_num)
    rcases prime_dvd_split r _ _ hr h with h | h
    · rw [prime_dvd_pow_prime r 5 1 hr (by norm_num : Nat.Prime 5) h]
      exact zmod_pow_ne_one_of_powM 2861 2 ((2861 - 1) / 5) 2174 (by norm_num)
        (by norm_num) (by decide) (by norm_num) (by norm_num)
    rcases prime_dvd_split r _ _ hr h with h | h
    · rw [prime_dvd_pow_prime r 11 1 hr (by norm_num : Nat.Prime 11) h]
      exact zmod_pow_ne_one_of_powM 2861 2 ((2861 - 1) / 11) 2368 (by norm_num)
        (by norm_num) (by decide) (by norm_num) (by norm_num)
    · rw [prime_dvd_pow_prime r 13 1 hr (by norm_num : Nat.Prime 13) h]
      exact zmod_pow_ne_one_of_powM 2861 2 ((2861 - 1) / 13) 1385 (by norm_num)
        (by norm_num) (by decide) (by norm_num) (by norm_num)

/-- Lucas certificate: `4051` is prime (witness `10`). -/
theorem prime4051 : Nat.Prime 4051 := by
  have hfac : 4051 - 1 = 2 * (3 ^ 4 * (5 ^ 2)) := by norm_num
  refine lucas_primality 4051 ((10 : Nat) : ZMod 4051) ?_ ?_
  · exact zmod_pow_eq_one_of_powM 4051 10 (4051 - 1) (by norm_num) (by norm_num)
      (by decide)
  · intro r hr hdvd
    rw [hfac] at hdvd
    rcases prime_dvd_split r _ _ hr hdvd with h | h
    · rw [prime_dvd_pow_prime r 2 1 hr (by norm_num : Nat.Prime 2) h]
      exact zmod_pow_ne_one_of_powM 4051 10 ((4051 - 1) / 2) 4050 (by norm_num)
        (by norm_num) (by decide) (by norm_num) (by norm_num)
    rcases prime_dvd_split r _ _ hr h with h | h
    · rw [prime_dvd_pow_prime r 3 4 hr (by norm_num : Nat.Prime 3) h]
      exact zmod_pow_ne_one_of_powM 4051 10 ((4051 - 1) / 3) 797 (by norm_num)
        (by norm_num) (by decide) (by norm_num) (by norm_num)
    · rw [prime_dvd_pow_prime r 5 2 hr (by norm_num : Nat.Prime 5) h]
      exact zmod_pow_ne_one_of_powM 4051 10 ((4051 - 1) / 5) 4019 (by norm_num)
        (by norm_num) (by decide) (by norm_num) (by norm_num)

/-- Lucas certificate: `9349` is prime (witness `2`). -/
theorem prime9349 : Nat.Prime 9349 := by
  have hfac : 9349 - 1 = 2 ^ 2 * (3 * (19 * (41))) := by norm_num
  refine lucas_primality 9349 ((2 : Nat) : ZMod 9349) ?_ ?_
  · exact zmod_pow_eq_one_of_powM 9349 2 (9349 - 1) (by norm_num) (by norm_num)
      (by decide)
  · intro r hr hdvd
    rw [hfac] at hdvd
    rcases prime_dvd_split r _ _ hr hdvd with h | h
    · rw [prime_dvd_pow_prime r 2 2 hr (by norm_num : Nat.Prime 2) h]
      exact zmod_pow_ne_one_of_powM 9349 2 ((9349 - 1) / 2) 9348 (by norm_num)
        (by norm_num) (by decide) (by norm_num) (by norm_num)
    rcases prime_dvd_split r _ _ hr h with h | h
    · rw [prime_dvd_pow_prime r 3 1 hr (by norm_num : Nat.Prime 3) h]
      exact zmod_pow_ne_one_of_powM 9349 2 ((9349 - 1) / 3) 4020 (by norm_num)
        (by norm_num) (by decide) (by norm_num) (by norm_num)
    rcases prime_dvd_split r _ _ hr h with h | h
    · rw [prime_dvd_pow_prime r 19 1 hr (by norm_num : Nat.Prime 19) h]
      exact zmod_pow_ne_one_of_powM 9349 2 ((9349 - 1) / 19) 4423 (by norm_num)
        (by norm_num) (by decide) (by norm_num) (by norm_num)
    · rw [prime_dvd_pow_prime r 41 1 hr (by norm_num : Nat.Prime 41) h]
      exact zmod_pow_ne_one_of_powM 9349 2 ((9349 - 1) / 41) 1995 (by norm_num)
        (by norm_num) (by decide) (by norm_num) (by norm_num)

/-- Lucas certificate: `16699` is prime (witness `3`). -/
theorem prime16699 : Nat.Prime 16699 := by
  have hfac : 16699 - 1 = 2 * (3 * (11 ^ 2 * (23))) := by norm_num
  refine lucas_primality 16699 ((3 : Nat) : ZMod 16699) ?_ ?_
  · exact zmod_pow_eq_one_of_powM 16699 3 (16699 - 1) (by norm_num) (by norm_num)
      (by decide)
  · intro r hr hdvd
    rw [hfac] at hdvd
    rcases prime_dvd_split r _ _ hr hdvd with h | h
    · rw [prime_dvd_pow_prime r 2 1 hr (by norm_num : Nat.Prime 2) h]
      exact zmod_pow_ne_one_of_powM 16699 3 ((16699 - 1) / 2) 16698 (by norm_num)
        (by norm_num) (by decide) (by norm_num) (by norm_num)
    rcases prime_dvd_split r _ _ hr h with h | h
    · rw [prime_dvd_pow_prime r 3 1 hr (by norm_num : Nat.Prime 3) h]
      exact zmod_pow_ne_one_of_powM 16699 3 ((16699 - 1) / 3) 4376 (by norm_num)
        (by norm_num) (by decide) (by norm_num) (by norm_num)
    rcases prime_dvd_split r _ _ hr h with h | h
    · rw [prime_dvd_pow_prime r 11 2 hr (by norm_num : Nat.Prime 11) h]
      exact zmod_pow_ne_one_of_powM 16699 3 ((16699 - 1) / 11) 3130 (by norm_num)
        (by norm_num) (by decide) (by norm_num) (by norm_num)
    · rw [prime_dvd_pow_prime r 23 1 hr (by norm_num : Nat.Prime 23) h]
      exact zmod_pow_ne_one_of_powM 16699 3 ((16699 - 1) / 23) 7706 (by norm_num)
        (by norm_num) (by decide) (by norm_num) (by norm_num)

/-- Lucas certificate: `28181` is prime (witness `2`). -/
theorem prime28181 : Nat.Prime 28181 := by
  have hfac : 28181 - 1 = 2 ^ 2 * (5 * (1409)) := by norm_num
  refine lucas_primality 28181 ((2 : Nat) : ZMod 28181) ?_ ?_
  · exact zmod_pow_eq_one_of_powM 28181 2 (28181 - 1) (by norm_num) (by norm_num)
      (by decide)
  · intro r hr hdvd
    rw [hfac] at hdvd
    rcases prime_dvd_split r _ _ hr hdvd with h | h
    · rw [prime_dvd_pow_prime r 2 2 hr (by norm_num : Nat.Prime 2) h]
      exact zmod_pow_ne_one_of_powM 28181 2 ((28181 - 1) / 2) 28180 (by norm_num)
        (by norm_num) (by decide) (by norm_num) (by norm_num)
    rcases prime_dvd_split r _ _ hr h with h | h
    · rw [prime_dvd_pow_prime r 5 1 hr (by norm_num : Nat.Prime 5) h]
      exact zmod_pow_ne_one_of_powM 28181 2 ((28181 - 1) / 5) 26799 (by norm_num)
        (by norm_num) (by decide) (by norm_num) (by norm_num)
    · rw [prime_dvd_pow_prime r 1409 1 hr prime1409 h]
      exact zmod_pow_ne_one_of_powM 28181 2 ((28181 - 1) / 1409) 5879 (by norm_num)
        (by norm_num) (by decide) (by norm_num) (by norm_num)

/-- Lucas certificate: `85831` is prime (witness `3`). -/
theorem prime85831 : Nat.Prime 85831 := by
  have hfac : 85831 - 1 = 2 * (3 * (5 * (2861))) := by norm_num
  refine lucas_primality 85831 ((3 : Nat) : ZMod 85831) ?_ ?_
  · exact zmod_pow_eq_one_of_powM 85831 3 (85831 - 1) (by norm_num) (by norm_num)
      (by decide)
  · intro r hr hdvd
    rw [hfac] at hdvd
    rcases prime_dvd_split r _ _ hr hdvd with h | h
    · rw [prime_dvd_pow_prime r 2 1 hr (by norm_num : Nat.Prime 2) h]
      exact zmod_pow_ne_one_of_powM 85831 3 ((85831 - 1) / 2) 85830 (by norm_num)
        (by norm_num) (by decide) (by norm_num) (by norm_num)
    rcases prime_dvd_split r _ _ hr h with h | h
    · rw [prime_dvd_pow_prime r 3 1 hr (by norm_num : Nat.Prime 3) h]
      exact zmod_pow_ne_one_of_powM 85831 3 ((85831 - 1) / 3) 48231 (by norm_num)
        (by norm_num) (by decide) (by norm_num) (by norm_num)
    rcases prime_dvd_split r _ _ hr h with h | h
    · rw [prime_dvd_pow_prime r 5 1 hr (by norm_num : Nat.Prime 5) h]
      exact zmod_pow_ne_one_of_powM 85831 3 ((85831 - 1) / 5) 63649 (by norm_num)
        (by norm_num) (by decide) (by norm_num) (by norm_num)
    · rw [prime_dvd_pow_prime r 2861 1 hr prime2861 h]
      exact zmod_pow_ne_one_of_powM 85831 3 ((85831 - 1) / 2861) 5623 (by norm_num)
        (by norm_num) (by decide) (by norm_num) (by norm_num)

/-- Lucas certificate: `120233` is prime (witness `3`). -/
theorem prime120233 : Nat.Prime 120233 := by
  have hfac : 120233 - 1 = 2 ^ 3 * (7 * (19 * (113))) := by norm_num
  refine lucas_primality 120233 ((3 : Nat) : ZMod 120233) ?_ ?_
  · exact zmod_pow_eq_one_of_powM 120233 3 (120233 - 1) (by norm_num) (by norm_num)
      (by decide)
  · intro r hr hdvd
    rw [hfac] at hdvd
    rcases prime_dvd_split r _ _ hr hdvd with h | h
    · rw [prime_dvd_pow_prime r 2 3 hr (by norm_num : Nat.Prime 2) h]
      exact zmod_pow_ne_one_of_powM 120233 3 ((120233 - 1) / 2) 120232 (by norm_num)
        (by norm_num) (by decide) (by norm_num) (by norm_num)
    rcases prime_dvd_split r _ _ hr h with h | h
    · rw [prime_dvd_pow_prime r 7 1 hr (by norm_num : Nat.Prime 7) h]
      exact zmod_pow_ne_one_of_powM 120233 3 ((120233 - 1) / 7) 41163 (by norm_num)
        (by norm_num) (by decide) (by norm_num) (by norm_num)
    rcases prime_dvd_split r _ _ hr h with h | h
    · rw [prime_dvd_pow_prime r 19 1 hr (by norm_num : Nat.Prime 19) h]
      exact zmod_pow_ne_one_of_powM 120233 3 ((120233 - 1) / 19) 61639 (by norm_num)
        (by norm_num) (by decide) (by norm_num) (by norm_num)
    · rw [prime_dvd_pow_prime r 113 1 hr (by norm_num : Nat.Prime 113) h]
      exact zmod_pow_ne_one_of_powM 120233 3 ((120233 - 1) / 113) 80142 (by norm_num)
        (by norm_num) (by decide) (by norm_num) (by norm_num)

/-- Lucas certificate: `305873` is prime (witness `3`). -/
theorem prime305873 : Nat.Prime 305873 := by
  have hfac : 305873 - 1 = 2 ^ 4 * (7 * (2731)) := by norm_num
  refine lucas_primality 305873 ((3 : Nat) : ZMod 305873) ?_ ?_
  · exact zmod_pow_eq_one_of_powM 305873 3 (305873 - 1) (by norm_num) (by norm_num)
      (by decide)
  · intro r hr hdvd
    rw [hfac] at hdvd
    rcases prime_dvd_split r _ _ hr hdvd with h | h
    · rw [prime_dvd_pow_prime r 2 4 hr (by norm_num : Nat.Prime 2) h]
      exact zmod_pow_ne_one_of_powM 305873 3 ((305873 - 1) / 2) 305872 (by norm_num)
        (by norm_num) (by decide) (by norm_num) (by norm_num)
    rcases prime_dvd_split r _ _ hr h with h | h
    · rw [prime_dvd_pow_prime r 7 1 hr (by norm_num : Nat.Prime 7) h]
      exact zmod_pow_ne_one_of_powM 305873 3 ((305873 - 1) / 7) 145208 (by norm_num)
        (by norm_num) (by decide) (by norm_num) (by norm_num)
    · rw [prime_dvd_pow_prime r 2731 1 hr prime2731 h]
      exact zmod_pow_ne_one_of_powM 305873 3 ((305873 - 1) / 2731) 133117 (by norm_num)
        (by norm_num) (by decide) (by norm_num) (by norm_num)

/-- Lucas certificate: `1627771` is prime (witness `3`). -/
theorem prime1627771 : Nat.Prime 1627771 := by
  have hfac : 1627771 - 1 = 2 * (3 * (5 * (29 * (1871)))) := by norm_num
  refine lucas_primality 1627771 ((3 : Nat) : ZMod 1627771) ?_ ?_
  · exact zmod_pow_eq_one_of_powM 1627771 3 (1627771 - 1) (by norm_num) (by norm_num)
      (by decide)
  · intro r hr hdvd
    rw [hfac] at hdvd
    rcases prime_dvd_split r _ _ hr hdvd with h | h
    · rw [prime_dvd_pow_prime r 2 1 hr (by norm_num : Nat.Prime 2) h]
      exact zmod_pow_ne_one_of_powM 1627771 3 ((1627771 - 1) / 2) 1627770 (by norm_num)
        (by norm_num) (by decide) (by norm_num) (by norm_num)
    rcases prime_dvd_split r _ _ hr h with h | h
    · rw [prime_dvd_pow_prime r 3 1 hr (by norm_num : Nat.Prime 3) h]
      exact zmod_pow_ne_one_of_powM 1627771 3 ((1627771 - 1) / 3) 1274054 (by norm_num)
        (by norm_num) (by decide) (by norm_num) (by norm_num)
    rcases prime_dvd_split r _ _ hr h with h | h
    · rw [prime_dvd_pow_prime r 5 1 hr (by norm_num : Nat.Prime 5) h]
      exact zmod_pow_ne_one_of_powM 1627771 3 ((1627771 - 1) / 5) 528870 (by norm_num)
        (by norm_num) (by decide) (by norm_num) (by norm_num)
    rcases prime_dvd_split r _ _ hr h with h | h
    · rw [prime_dvd_pow_prime r 29 1 hr (by norm_num : Nat.Prime 29) h]
      exact zmod_pow_ne_one_of_powM 1627771 3 ((1627771 - 1) / 29) 366762 (by norm_num)
        (by norm_num) (by decide) (by norm_num) (by norm_num)
    · rw [prime_dvd_pow_prime r 1871 1 hr prime1871 h]
      exact zmod_pow_ne_one_of_powM 1627771 3 ((1627771 - 1) / 1871) 132478 (by norm_num)
        (by norm_num) (by decide) (by norm_num) (by norm_num)

/-- Lucas certificate: `4681609` is prime (witness `23`). -/
theorem prime4681609 : Nat.Prime 4681609 := by
  have hfac : 4681609 - 1 = 2 ^ 3 * (3 * (97 * (2011))) := by norm_num
  refine lucas_primality 4681609 ((23 : Nat) : ZMod 4681609) ?_ ?_
  · exact zmod_pow_eq_one_of_powM 4681609 23 (4681609 - 1) (by norm_num) (by norm_num)
      (by decide)
  · intro r hr hdvd
    rw [hfac] at hdvd
    rcases prime_dvd_split r _ _ hr hdvd with h | h
    · rw [prime_dvd_pow_prime r 2 3 hr (by norm_num : Nat.Prime 2) h]
      exact zmod_pow_ne_one_of_powM 4681609 23 ((4681609 - 1) / 2) 4681608 (by norm_num)
        (by norm_num) (by decide) (by norm_num) (by norm_num)
    rcases prime_dvd_split r _ _ hr h with h | h
    · rw [prime_dvd_pow_prime r 3 1 hr (by norm_num : Nat.Prime 3) h]
      exact zmod_pow_ne_one_of_powM 4681609 23 ((4681609 - 1) / 3) 4655375 (by norm_num)
        (by norm_num) (by decide) (by norm_num) (by norm_num)
    rcases prime_dvd_split r _ _ hr h with h | h
    · rw [prime_dvd_pow_prime r 97 1 hr (by norm_num : Nat.Prime 97) h]
      exact zmod_pow_ne_one_of_powM 4681609 23 ((4681609 - 1) / 97) 2645224 (by norm_num)
        (by norm_num) (by decide) (by norm_num) (by norm_num)
    · rw [prime_dvd_pow_prime r 2011 1 hr prime2011 h]
      exact zmod_pow_ne_one_of_powM 4681609 23 ((4681609 - 1) / 2011) 3128060 (by norm_num)
        (by norm_num) (by decide) (by norm_num) (by norm_num)

/-- Lucas certificate: `44706919` is prime (witness `6`). -/
theorem prime44706919 : Nat.Prime 44706919 := by
  have hfac : 44706919 - 1 = 2 * (3 * (797 * (9349))) := by norm_num
  refine lucas_primality 44706919 ((6 : Nat) : ZMod 44706919) ?_ ?_
  · exact zmod_pow_eq_one_of_powM 44706919 6 (44706919 - 1) (by norm_num) (by norm_num)
      (by decide)
  · intro r hr hdvd
    rw [hfac] at hdvd
    rcases prime_dvd_split r _ _ hr hdvd with h | h
    · rw [prime_dvd_pow_prime r 2 1 hr (by norm_num : Nat.Prime 2) h]
      exact zmod_pow_ne_one_of_powM 44706919 6 ((44706919 - 1) / 2) 44706918 (by norm_num)
        (by norm_num) (by decide) (by norm_num) (by norm_num)
    rcases prime_dvd_split r _ _ hr h with h | h
    · rw [prime_dvd_pow_prime r 3 1 hr (by norm_num : Nat.Prime 3) h]
      exact zmod_pow_ne_one_of_powM 44706919 6 ((44706919 - 1) / 3) 30500379 (by norm_num)
        (by norm_num) (by decide) (by norm_num) (by norm_num)
    rcases prime_dvd_split r _ _ hr h with h | h
    · rw [prime_dvd_pow_prime r 797 1 hr (by norm_num : Nat.Prime 797) h]
      exact zmod_pow_ne_one_of_powM 44706919 6 ((44706919 - 1) / 797) 41156332 (by norm_num)
        (by norm_num) (by decide) (by norm_num) (by norm_num)
    · rw [prime_dvd_pow_prime r 9349 1 hr prime9349 h]
      exact zmod_pow_ne_one_of_powM 44706919 6 ((44706919 - 1) / 9349) 6711465 (by norm_num)
        (by norm_num) (by decide) (by norm_num) (by norm_num)

/-- Lucas certificate: `545358713` is prime (witness `5`). -/
theorem prime545358713 : Nat.Prime 545358713 := by
  have hfac : 545358713 - 1 = 2 ^ 3 * (41 * (59 * (28181))) := by norm_num
  refine lucas_primality 545358713 ((5 : Nat) : ZMod 545358713) ?_ ?_
  · exact zmod_pow_eq_one_of_powM 545358713 5 (545358713 - 1) (by norm_num) (by norm_num)
      (by decide)
  · intro r hr hdvd
    rw [hfac] at hdvd
    rcases prime_dvd_split r _ _ hr hdvd with h | h
    · rw [prime_dvd_pow_prime r 2 3 hr (by norm_num : Nat.Prime 2) h]
      exact zmod_pow_ne_one_of_powM 545358713 5 ((545358713 - 1) / 2) 545358712 (by norm_num)
        (by norm_num) (by decide) (by norm_num) (by norm_num)
    rcases prime_dvd_split r _ _ hr h with h | h
    · rw [prime_dvd_pow_prime r 41 1 hr (by norm_num : Nat.Prime 41) h]
      exact zmod_pow_ne_one_of_powM 545358713 5 ((545358713 - 1) / 41) 232418614 (by norm_num)
        (by norm_num) (by decide) (by norm_num) (by norm_num)
    rcases prime_dvd_split r _ _ hr h with h | h
    · rw [prime_dvd_pow_prime r 59 1 hr (by norm_num : Nat.Prime 59) h]
      exact zmod_pow_ne_one_of_powM 545358713 5 ((545358713 - 1) / 59) 256734421 (by norm_num)
        (by norm_num) (by decide) (by norm_num) (by norm_num)
    · rw [prime_dvd_pow_prime r 28181 1 hr prime28181 h]
      exact zmod_pow_ne_one_of_powM 545358713 5 ((545358713 - 1) / 28181) 453985277 (by norm_num)
        (by norm_num) (by decide) (by norm_num) (by norm_num)

/-- Lucas certificate: `297159362677` is prime (witness `2`). -/
theorem prime297159362677 : Nat.Prime 297159362677 := by
  have hfac : 297159362677 - 1 = 2 ^ 2 * (3 ^ 2 * (11 * (461 * (1627771)))) := by norm_num
  refine lucas_primality 297159362677 ((2 : Nat) : ZMod 297159362677) ?_ ?_
  · exact zmod_pow_eq_one_of_powM 297159362677 2 (297159362677 - 1) (by norm_num) (by norm_num)
      (by decide)
  · intro r hr hdvd
    rw [hfac] at hdvd
    rcases prime_dvd_split r _ _ hr hdvd with h | h
    · rw [prime_dvd_pow_prime r 2 2 hr (by norm_num : Nat.Prime 2) h]
      exact zmod_pow_ne_one_of_powM 297159362677 2 ((297159362677 - 1) / 2) 297159362676 (by norm_num)
        (by norm_num) (by decide) (by norm_num) (by norm_num)
    rcases prime_dvd_split r _ _ hr h with h | h
    · rw [prime_dvd_pow_prime r 3 2 hr (by norm_num : Nat.Prime 3) h]
      exact zmod_pow_ne_one_of_powM 297159362677 2 ((297159362677 - 1) / 3) 21378871788 (by norm_num)
        (by norm_num) (by decide) (by norm_num) (by norm_num)
    rcases prime_dvd_split r _ _ hr h with h | h
    · rw [prime_dvd_pow_prime r 11 1 hr (by norm_num : Nat.Prime 11) h]
      exact zmod_pow_ne_one_of_powM 297159362677 2 ((297159362677 - 1) / 11) 235971553533 (by norm_num)
        (by norm_num) (by decide) (by norm_num) (by norm_num)
    rcases prime_dvd_split r _ _ hr h with h | h
    · rw [prime_dvd_pow_prime r 461 1 hr (by norm_num : Nat.Prime 461) h]
      exact zmod_pow_ne_one_of_powM 297159362677 2 ((297159362677 - 1) / 461) 238970074943 (by norm_num)
        (by norm_num) (by decide) (by norm_num) (by norm_num)
    · rw [prime_dvd_pow_prime r 1627771 1 hr prime1627771 h]
      exact zmod_pow_ne_one_of_powM 297159362677 2 ((297159362677 - 1) / 1627771) 114170894341 (by norm_num)
        (by norm_num) (by decide) (by norm_num) (by norm_num)

/-- Lucas certificate: `107361793816595537` is prime (witness `3`). -/
theorem prime107361793816595537 : Nat.Prime 107361793816595537 := by
  have hfac : 107361793816595537 - 1 = 2 ^ 4 * (16699 * (85831 * (4681609))) := by norm_num
  refine lucas_primality 107361793816595537 ((3 : Nat) : ZMod 107361793816595537) ?_ ?_
  · exact zmod_pow_eq_one_of_powM 107361793816595537 3 (107361793816595537 - 1) (by norm_num) (by norm_num)
      (by decide)
  · intro r hr hdvd
    rw [hfac] at hdvd
    rcases prime_dvd_split r _ _ hr hdvd with h | h
    · rw [prime_dvd_pow_prime r 2 4 hr (by norm_num : Nat.Prime 2) h]
      exact zmod_pow_ne_one_of_powM 107361793816595537 3 ((107361793816595537 - 1) / 2) 107361793816595536 (by norm_num)
        (by norm_num) (by decide) (by norm_num) (by norm_num)
    rcases prime_dvd_split r _ _ hr h with h | h
    · rw [prime_dvd_pow_prime r 16699 1 hr prime16699 h]
      exact zmod_pow_ne_one_of_powM 107361793816595537 3 ((107361793816595537 - 1) / 16699) 5951470030516601 (by norm_num)
        (by norm_num) (by decide) (by norm_num) (by norm_num)
    rcases prime_dvd_split r _ _ hr h with h | h
    · rw [prime_dvd_pow_prime r 85831 1 hr prime85831 h]
      exact zmod_pow_ne_one_of_powM 107361793816595537 3 ((107361793816595537 - 1) / 85831) 43062364984479349 (by norm_num)
        (by norm_num) (by decide) (by norm_num) (by norm_num)
    · rw [prime_dvd_pow_prime r 4681609 1 hr prime4681609 h]
      exact zmod_pow_ne_one_of_powM 107361793816595537 3 ((107361793816595537 - 1) / 4681609) 38869239624772579 (by norm_num)
        (by norm_num) (by decide) (by norm_num) (by norm_num)

/-- Lucas certificate: `174723607534414371449` is prime (witness `3`). -/
theorem prime174723607534414371449 : Nat.Prime 174723607534414371449 := by
  have hfac : 174723607534414371449 - 1 = 2 ^ 3 * (17 * (59 * (4051 * (120233 * (44706919))))) := by norm_num
  refine lucas_primality 174723607534414371449 ((3 : Nat) : ZMod 174723607534414371449) ?_ ?_
  · exact zmod_pow_eq_one_of_powM 174723607534414371449 3 (174723607534414371449 - 1) (by norm_num) (by norm_num)
      (by decide)
  · intro r hr hdvd
    rw [hfac] at hdvd
    rcases prime_dvd_split r _ _ hr hdvd with h | h
    · rw [prime_dvd_pow_prime r 2 3 hr (by norm_num : Nat.Prime 2) h]
      exact zmod_pow_ne_one_of_powM 174723607534414371449 3 ((174723607534414371449 - 1) / 2) 174723607534414371448 (by norm_num)
        (by norm_num) (by decide) (by norm_num) (by norm_num)
    rcases prime_dvd_split r _ _ hr h with h | h
    · rw [prime_dvd_pow_prime r 17 1 hr (by norm_num : Nat.Prime 17) h]
      exact zmod_pow_ne_one_of_powM 174723607534414371449 3 ((174723607534414371449 - 1) / 17) 143977312736193201955 (by norm_num)
        (by norm_num) (by decide) (by norm_num) (by norm_num)
    rcases prime_dvd_split r _ _ hr h with h | h
    · rw [prime_dvd_pow_prime r 59 1 hr (by norm_num : Nat.Prime 59) h]
      exact zmod_pow_ne_one_of_powM 174723607534414371449 3 ((174723607534414371449 - 1) / 59) 101275312590739994117 (by norm_num)
        (by norm_num) (by decide) (by norm_num) (by norm_num)
    rcases prime_dvd_split r _ _ hr h with h | h
    · rw [prime_dvd_pow_prime r 4051 1 hr prime4051 h]
      exact zmod_pow_ne_one_of_powM 174723607534414371449 3 ((174723607534414371449 - 1) / 4051) 117775491988442121468 (by norm_num)
        (by norm_num) (by decide) (by norm_num) (by norm_num)
    rcases prime_dvd_split r _ _ hr h with h | h
    · rw [prime_dvd_pow_prime r 120233 1 hr prime120233 h]
      exact zmod_pow_ne_one_of_powM 174723607534414371449 3 ((174723607534414371449 - 1) / 120233) 143725591556162883674 (by norm_num)
        (by norm_num) (by decide) (by norm_num) (by norm_num)
    · rw [prime_dvd_pow_prime r 44706919 1 hr prime44706919 h]
      exact zmod_pow_ne_one_of_powM 174723607534414371449 3 ((174723607534414371449 - 1) / 44706919) 72059039805266995621 (by norm_num)
        (by norm_num) (by decide) (by norm_num) (by norm_num)

/-- Lucas certificate: `29047611873442575647497758179` is prime (witness `2`). -/
theorem prime29047611873442575647497758179 : Nat.Prime 29047611873442575647497758179 := by
  have hfac : 29047611873442575647497758179 - 1 = 2 * (293 * (305873 * (545358713 * (297159362677)))) := by norm_num
  refine lucas_primality 29047611873442575647497758179 ((2 : Nat) : ZMod 29047611873442575647497758179) ?_ ?_
  · exact zmod_pow_eq_one_of_powM 29047611873442575647497758179 2 (29047611873442575647497758179 - 1) (by norm_num) (by norm_num)
      (by decide)
  · intro r hr hdvd
    rw [hfac] at hdvd
    rcases prime_dvd_split r _ _ hr hdvd with h | h
    · rw [prime_dvd_pow_prime r 2 1 hr (by norm_num : Nat.Prime 2) h]
      exact zmod_pow_ne_one_of_powM 29047611873442575647497758179 2 ((29047611873442575647497758179 - 1) / 2) 29047611873442575647497758178 (by norm_num)
        (by norm_num) (by decide) (by norm_num) (by norm_num)
    rcases prime_dvd_split r _ _ hr h with h | h
    · rw [prime_dvd_pow_prime r 293 1 hr (by norm_num : Nat.Prime 293) h]
      exact zmod_pow_ne_one_of_powM 29047611873442575647497758179 2 ((29047611873442575647497758179 - 1) / 293) 6256662822391641148461841119 (by norm_num)
        (by norm_num) (by decide) (by norm_num) (by norm_num)
    rcases prime_dvd_split r _ _ hr h with h | h
    · rw [prime_dvd_pow_prime r 305873 1 hr prime305873 h]
      exact zmod_pow_ne_one_of_powM 29047611873442575647497758179 2 ((29047611873442575647497758179 - 1) / 305873) 15515419077790409984750505041 (by norm_num)
        (by norm_num) (by decide) (by norm_num) (by norm_num)
    rcases prime_dvd_split r _ _ hr h with h | h
    · rw [prime_dvd_pow_prime r 545358713 1 hr prime545358713 h]
      exact zmod_pow_ne_one_of_powM 29047611873442575647497758179 2 ((29047611873442575647497758179 - 1) / 545358713) 1548700731856248688196814844 (by norm_num)
        (by norm_num) (by decide) (by norm_num) (by norm_num)
    · rw [prime_dvd_pow_prime r 297159362677 1 hr prime297159362677 h]
      exact zmod_pow_ne_one_of_powM 29047611873442575647497758179 2 ((29047611873442575647497758179 - 1) / 297159362677) 16062460713643416818883781819 (by norm_num)
        (by norm_num) (by decide) (by norm_num) (by norm_num)

/-- Lucas certificate: `341948486974166000522343609283189` is prime (witness `2`). -/
theorem prime341948486974166000522343609283189 : Nat.Prime 341948486974166000522343609283189 := by
  have hfac : 341948486974166000522343609283189 - 1 = 2 ^ 2 * (3 ^ 3 * (109 * (29047611873442575647497758179))) := by norm_num
  refine lucas_primality 341948486974166000522343609283189 ((2 : Nat) : ZMod 341948486974166000522343609283189) ?_ ?_
  · exact zmod_pow_eq_one_of_powM 341948486974166000522343609283189 2 (341948486974166000522343609283189 - 1) (by norm_num) (by norm_num)
      (by decide)
  · intro r hr hdvd
    rw [hfac] at hdvd
    rcases prime_dvd_split r _ _ hr hdvd with h | h
    · rw [prime_dvd_pow_prime r 2 2 hr (by norm_num : Nat.Prime 2) h]
      exact zmod_pow_ne_one_of_powM 341948486974166000522343609283189 2 ((341948486974166000522343609283189 - 1) / 2) 341948486974166000522343609283188 (by norm_num)
        (by norm_num) (by decide) (by norm_num) (by norm_num)
    rcases prime_dvd_split r _ _ hr h with h | h
    · rw [prime_dvd_pow_prime r 3 3 hr (by norm_num : Nat.Prime 3) h]
      exact zmod_pow_ne_one_of_powM 341948486974166000522343609283189 2 ((341948486974166000522343609283189 - 1) / 3) 165002932037550746596172898062794 (by norm_num)
        (by norm_num) (by decide) (by norm_num) (by norm_num)
    rcases prime_dvd_split r _ _ hr h with h | h
    · rw [prime_dvd_pow_prime r 109 1 hr (by norm_num : Nat.Prime 109) h]
      exact zmod_pow_ne_one_of_powM 341948486974166000522343609283189 2 ((341948486974166000522343609283189 - 1) / 109) 153618737808983370202320649387857 (by norm_num)
        (by norm_num) (by decide) (by norm_num) (by norm_num)
    · rw [prime_dvd_pow_prime r 29047611873442575647497758179 1 hr prime29047611873442575647497758179 h]
      exact zmod_pow_ne_one_of_powM 341948486974166000522343609283189 2 ((341948486974166000522343609283189 - 1) / 29047611873442575647497758179) 291782875431971620014836968593543 (by norm_num)
        (by norm_num) (by decide) (by norm_num) (by norm_num)

/-- Lucas certificate: `115792089237316195423570985008687907852837564279074904382605163141518161494337` is prime (witness `7`). -/
theorem prime115792089237316195423570985008687907852837564279074904382605163141518161494337 : Nat.Prime 115792089237316195423570985008687907852837564279074904382605163141518161494337 := by
  have hfac : 115792089237316195423570985008687907852837564279074904382605163141518161494337 - 1 = 2 ^ 6 * (3 * (149 * (631 * (107361793816595537 * (174723607534414371449 * (341948486974166000522343609283189)))))) := by norm_num
  refine lucas_primality 115792089237316195423570985008687907852837564279074904382605163141518161494337 ((7 : Nat) : ZMod 115792089237316195423570985008687907852837564279074904382605163141518161494337) ?_ ?_
  · exact zmod_pow_eq_one_of_powM 115792089237316195423570985008687907852837564279074904382605163141518161494337 7 (115792089237316195423570985008687907852837564279074904382605163141518161494337 - 1) (by norm_num) (by norm_num)
      (by decide)
  · intro r hr hdvd
    rw [hfac] at hdvd
    rcases prime_dvd_split r _ _ hr hdvd with h | h
    · rw [prime_dvd_pow_prime r 2 6 hr (by norm_num : Nat.Prime 2) h]
      exact zmod_pow_ne_one_of_powM 115792089237316195423570985008687907852837564279074904382605163141518161494337 7 ((115792089237316195423570985008687907852837564279074904382605163141518161494337 - 1) / 2) 115792089237316195423570985008687907852837564279074904382605163141518161494336 (by norm_num)
        (by norm_num) (by decide) (by norm_num) (by norm_num)
    rcases prime_dvd_split r _ _ hr h with h | h
    · rw [prime_dvd_pow_prime r 3 1 hr (by norm_num : Nat.Prime 3) h]
      exact zmod_pow_ne_one_of_powM 115792089237316195423570985008687907852837564279074904382605163141518161494337 7 ((115792089237316195423570985008687907852837564279074904382605163141518161494337 - 1) / 3) 78074008874160198520644763525212887401909906723592317393988542598630163514318 (by norm_num)
        (by norm_num) (by decide) (by norm_num) (by norm_num)
    rcases prime_dvd_split r _ _ hr h with h | h
    · rw [prime_dvd_pow_prime r 149 1 hr (by norm_num : Nat.Prime 149) h]
      exact zmod_pow_ne_one_of_powM 115792089237316195423570985008687907852837564279074904382605163141518161494337 7 ((115792089237316195423570985008687907852837564279074904382605163141518161494337 - 1) / 149) 64883128911135277911836602334573374963230868236696644030005288079353585574111 (by norm_num)
        (by norm_num) (by decide) (by norm_num) (by norm_num)
    rcases prime_dvd_split r _ _ hr h with h | h
    · rw [prime_dvd_pow_prime r 631 1 hr (by norm_num : Nat.Prime 631) h]
      exact zmod_pow_ne_one_of_powM 115792089237316195423570985008687907852837564279074904382605163141518161494337 7 ((115792089237316195423570985008687907852837564279074904382605163141518161494337 - 1) / 631) 6252150074946714737332729428705675642972902278047830378127425501959375813903 (by norm_num)
        (by norm_num) (by decide) (by norm_num) (by norm_num)
    rcases prime_dvd_split r _ _ hr h with h | h
    · rw [prime_dvd_pow_prime r 107361793816595537 1 hr prime107361793816595537 h]
      exact zmod_pow_ne_one_of_powM 115792089237316195423570985008687907852837564279074904382605163141518161494337 7 ((115792089237316195423570985008687907852837564279074904382605163141518161494337 - 1) / 107361793816595537) 26709443456820378470009624069039436105476083851490662296256974102742433182582 (by norm_num)
        (by norm_num) (by decide) (by norm_num) (by norm_num)
    rcases prime_dvd_split r _ _ hr h with h | h
    · rw [prime_dvd_pow_prime r 174723607534414371449 1 hr prime174723607534414371449 h]
      exact zmod_pow_ne_one_of_powM 115792089237316195423570985008687907852837564279074904382605163141518161494337 7 ((115792089237316195423570985008687907852837564279074904382605163141518161494337 - 1) / 174723607534414371449) 38287106903381487806596844795024845528187487515989485561747806759347824233212 (by norm_num)
        (by norm_num) (by decide) (by norm_num) (by norm_num)
    · rw [prime_dvd_pow_prime r 341948486974166000522343609283189 1 hr prime341948486974166000522343609283189 h]
      exact zmod_pow_ne_one_of_powM 115792089237316195423570985008687907852837564279074904382605163141518161494337 7 ((115792089237316195423570985008687907852837564279074904382605163141518161494337 - 1) / 341948486974166000522343609283189) 40330847986065730117990277892798860778585692388550324850907595869688089295689 (by norm_num)
        (by norm_num) (by decide) (by norm_num) (by norm_num)

/-! ## ECDSA over secp256k1 (`BitcoinSigner.signECDSA`)

`signECDSA` (bitcoin-simple.js lines 194-201, wrapper lines 322-348) delegates
the actual signature to `nobleSecp256k1.sign(messageHash, privateKeyBytes,
canonical: true)`, a bundled library that is not part of the sources under
review.  Modelled from the spec: "produce a deterministic ECDSA signature over
secp256k1 using the given 32-byte digest; enforce the canonical low-`s` form
(if `s > curveOrder/2`, replace with `curveOrder - s`)".

The model is parameterised by the point group: an additive commutative group
`P` with a base point `G` of order exactly `secpOrder` (the secp256k1 group
order, whose primality is proved above) and an x-coordinate function
`X : P → Nat` invariant under point negation — exactly the properties of the
secp256k1 curve used by ECDSA.  The nonce `k` is universally quantified, which
covers any deterministic nonce-derivation scheme. -/

/-- The secp256k1 group order (`curveOrder` in the spec). -/
def secpOrder : Nat :=
  115792089237316195423570985008687907852837564279074904382605163141518161494337

theorem secpOrder_prime : Nat.Prime secpOrder :=
  prime115792089237316195423570985008687907852837564279074904382605163141518161494337

instance : Fact (Nat.Prime secpOrder) := ⟨secpOrder_prime⟩

instance : NeZero secpOrder := ⟨by rw [secpOrder]; omega⟩

/-- Modelled from the spec: the `(r, s)` pair produced by `signECDSA` before
DER encoding, for secret scalar `d`, nonce `k` and digest `z`:
`r = x(kG) mod n`, `s = k⁻¹(z + r d)`, then the canonical low-`s`
normalisation `if s > n/2 then s := n - s`. -/
def ecdsaSign {P : Type} [AddCommGroup P] (G : P) (X : P → Nat)
    (d k z : ZMod secpOrder) : ZMod secpOrder × ZMod secpOrder :=
  let r : ZMod secpOrder := ((X (k.val • G) : Nat) : ZMod secpOrder)
  let s := k⁻¹ * (z + r * d)
  (r, if secpOrder / 2 < s.val then -s else s)

/-- Modelled from the spec: standard ECDSA verification of `(r, s)` against
public key `Q` and digest `z`: both components nonzero and
`x(u₁G + u₂Q) mod n = r` for `u₁ = z s⁻¹`, `u₂ = r s⁻¹`. -/
def ecdsaVerify {P : Type} [AddCommGroup P] (G : P) (X : P → Nat) (Q : P)
    (z : ZMod secpOrder) (sig : ZMod secpOrder × ZMod secpOrder) : Prop :=
  sig.1 ≠ 0 ∧ sig.2 ≠ 0 ∧
    ((X ((z * sig.2⁻¹).val • G + (sig.1 * sig.2⁻¹).val • Q) : Nat) : ZMod secpOrder) = sig.1

/-- The public key derived from the secret scalar. -/
def ecdsaPubKey {P : Type} [AddCommGroup P] (G : P) (d : ZMod secpOrder) : P :=
  d.val • G

theorem nsmul_mod {P : Type} [AddCommGroup P] (G : P)
    (hord : ∀ m : Nat, m • G = 0 ↔ secpOrder ∣ m) (m : Nat) :
    (m % secpOrder) • G = m • G := by
  have hz : (secpOrder * (m / secpOrder)) • G = 0 :=
    (hord (secpOrder * (m / secpOrder))).mpr (dvd_mul_right _ _)
  conv_rhs => rw [← Nat.div_add_mod m secpOrder]
  rw [add_nsmul, hz, zero_add]

theorem zmod_smul_add {P : Type} [AddCommGroup P] (G : P)
    (hord : ∀ m : Nat, m • G = 0 ↔ secpOrder ∣ m) (a b : ZMod secpOrder) :
    (a + b).val • G = a.val • G + b.val • G := by
  rw [ZMod.val_add, nsmul_mod G hord, add_nsmul]

theorem zmod_smul_mul {P : Type} [AddCommGroup P] (G : P)
    (hord : ∀ m : Nat, m • G = 0 ↔ secpOrder ∣ m) (a b : ZMod secpOrder) :
    (a * b).val • G = a.val • b.val • G := by
  rw [ZMod.val_mul, nsmul_mod G hord, ← smul_smul]

theorem zmod_smul_neg {P : Type} [AddCommGroup P] (G : P)
    (hord : ∀ m : Nat, m • G = 0 ↔ secpOrder ∣ m) (a : ZMod secpOrder) :
    (-a).val • G = -(a.val • G) := by
  have h := zmod_smul_add G hord (-a) a
  rw [neg_add_cancel] at h
  have h0 : ((0 : ZMod secpOrder)).val • G = 0 := by
    rw [ZMod.val_zero, zero_nsmul]
  rw [h0] at h
  exact eq_neg_of_add_eq_zero_left h.symm

/-- C1: a signature produced by `signECDSA` is in canonical low-`s` form
(`s ≤ curveOrder/2`) and verifies as a valid ECDSA signature against the
public key derived from the secret key and the given digest.  Stated for any
realisation of the secp256k1 point group: an additive commutative group with
a base point of order exactly `secpOrder` (proved prime above) and an
x-coordinate invariant under negation — the defining properties of the
secp256k1 curve that ECDSA uses; the nonce `k` is universally quantified,
covering the deterministic derivation of the noble library. -/
theorem ecdsaSign_lowS_and_verifies
    {P : Type} [AddCommGroup P] (G : P) (X : P → Nat)
    (hord : ∀ m : Nat, m • G = 0 ↔ secpOrder ∣ m)
    (hX : ∀ A : P, X (-A) = X A)
    (d k z : ZMod secpOrder) (hd : d ≠ 0) (hk : k ≠ 0)
    (hr : (ecdsaSign G X d k z).1 ≠ 0)
    (hs : k⁻¹ * (z + (ecdsaSign G X d k z).1 * d) ≠ 0) :
    (ecdsaSign G X d k z).2.val ≤ secpOrder / 2 ∧
    ecdsaVerify G X (ecdsaPubKey G d) z (ecdsaSign G X d k z) := by
  have hodd : secpOrder % 2 = 1 := by rw [secpOrder]
  have hnlt : ∀ a : ZMod secpOrder, a.val < secpOrder := fun a => ZMod.val_lt a
  set r : ZMod secpOrder := ((X (k.val • G) : Nat) : ZMod secpOrder) with hrdef
  have hr1 : (ecdsaSign G X d k z).1 = r := rfl
  set s₀ : ZMod secpOrder := k⁻¹ * (z + r * d) with hs0def
  have hs0 : s₀ ≠ 0 := hs
  have hr' : r ≠ 0 := hr
  have h2 : (ecdsaSign G X d k z).2
      = if secpOrder / 2 < s₀.val then -s₀ else s₀ := rfl
  -- the scalar recovered by the verifier, for either of the two s values
  have hksval : z + r * d = k * s₀ := by
    rw [hs0def, ← mul_assoc, mul_inv_cancel₀ hk, one_mul]
  have hrec : z * s₀⁻¹ + r * s₀⁻¹ * d = k := by
    calc z * s₀⁻¹ + r * s₀⁻¹ * d = (z + r * d) * s₀⁻¹ := by ring
      _ = k * s₀ * s₀⁻¹ := by rw [hksval]
      _ = k := by rw [mul_assoc, mul_inv_cancel₀ hs0, mul_one]
  constructor
  · -- low-s bound
    rw [h2]
    split
    · rename_i hgt
      rw [ZMod.neg_val]
      split
      · omega
      · have := hnlt s₀
        omega
    · omega
  · -- verification
    refine ⟨hr, ?_, ?_⟩
    · rw [h2]
      split
      · exact neg_ne_zero.mpr hs0
      · exact hs0
    · rw [hr1, h2]
      have hmain : ∀ s : ZMod secpOrder, s ≠ 0 → z * s⁻¹ + r * s⁻¹ * d = k →
          ((X ((z * s⁻¹).val • G + (r * s⁻¹).val • ecdsaPubKey G d) : Nat) :
            ZMod secpOrder) = r := by
        intro s hsne hval
        rw [ecdsaPubKey, ← zmod_smul_mul G hord (r * s⁻¹) d,
          ← zmod_smul_add G hord (z * s⁻¹) (r * s⁻¹ * d), hval]
      split
      · -- s = -s₀ : the verifier recovers -k, and X(-kG) = X(kG)
        have hneg : z * (-s₀)⁻¹ + r * (-s₀)⁻¹ * d = -k := by
          rw [inv_neg]
          calc z * (-s₀⁻¹) + r * (-s₀⁻¹) * d = -(z * s₀⁻¹ + r * s₀⁻¹ * d) := by ring
            _ = -k := by rw [hrec]
        rw [ecdsaPubKey, ← zmod_smul_mul G hord (r * (-s₀)⁻¹) d,
          ← zmod_smul_add G hord (z * (-s₀)⁻¹) (r * (-s₀)⁻¹ * d), hneg,
          zmod_smul_neg G hord k, hX]
      · exact hmain s₀ hs0 hrec

instance : Fact (1 < secpOrder) := ⟨by rw [secpOrder]; omega⟩

/-- A concrete realisation of the abstract x-coordinate on the additive group
`ZMod secpOrder` itself (used to exhibit the ECDSA theorem at a fully concrete
instance): negation-invariant by construction. -/
def Xmin (A : ZMod secpOrder) : Nat := min A.val (-A).val

theorem Xmin_hord : ∀ m : Nat, m • (1 : ZMod secpOrder) = 0 ↔ secpOrder ∣ m := by
  intro m
  rw [nsmul_eq_mul, mul_one]
  exact ZMod.natCast_zmod_eq_zero_iff_dvd m secpOrder

theorem Xmin_neg : ∀ A : ZMod secpOrder, Xmin (-A) = Xmin A := by
  intro A
  rw [Xmin, Xmin, neg_neg]
  exact min_comm _ _

theorem ecdsaSign_one_fst : (ecdsaSign (1 : ZMod secpOrder) Xmin 1 1 1).1 = 1 := by
  have hval : (1 : ZMod secpOrder).val = 1 := ZMod.val_one secpOrder
  have hneg : (-1 : ZMod secpOrder).val = secpOrder - 1 := by
    rw [ZMod.neg_val]
    simp [hval]
  have hXone : Xmin (1 : ZMod secpOrder) = 1 := by
    rw [Xmin, hval, hneg]
    have h2 : 2 < secpOrder := by rw [secpOrder]; omega
    omega
  show ((Xmin ((1 : ZMod secpOrder).val • (1 : ZMod secpOrder)) : Nat) : ZMod secpOrder) = 1
  rw [hval, one_nsmul, hXone, Nat.cast_one]

theorem two_ne_zero_zmod : (1 + 1 : ZMod secpOrder) ≠ 0 := by
  intro h
  have h2 : ((2 : Nat) : ZMod secpOrder) = 0 := by
    rw [show ((2 : Nat) : ZMod secpOrder) = 1 + 1 by push_cast; ring]
    exact h
  have hdvd : secpOrder ∣ 2 := (ZMod.natCast_zmod_eq_zero_iff_dvd 2 secpOrder).mp h2
  have hle : secpOrder ≤ 2 := Nat.le_of_dvd (by omega) hdvd
  have : 2 < secpOrder := by rw [secpOrder]; omega
  omega

/-! ## Claim theorems: witnesses, counterexamples and evaluations -/

/-- C1 witness: the theorem instantiated at the concrete group
`ZMod secpOrder` with base point `1` and x-coordinate `Xmin`, secret scalar,
nonce and digest all `1`. -/
theorem ecdsaSign_lowS_and_verifies_witness :
    (ecdsaSign (1 : ZMod secpOrder) Xmin 1 1 1).2.val ≤ secpOrder / 2 ∧
    ecdsaVerify (1 : ZMod secpOrder) Xmin (ecdsaPubKey (1 : ZMod secpOrder) 1) 1
      (ecdsaSign (1 : ZMod secpOrder) Xmin 1 1 1) :=
  ecdsaSign_lowS_and_verifies (1 : ZMod secpOrder) Xmin Xmin_hord Xmin_neg 1 1 1
    one_ne_zero one_ne_zero
    (by rw [ecdsaSign_one_fst]; exact one_ne_zero)
    (by rw [ecdsaSign_one_fst, inv_one, one_mul, mul_one]; exact two_ne_zero_zmod)

/-- C2 counterexample: the claim as stated fails — a locktime-only
transaction with version `2^31` (a valid u32) does not round trip to itself,
because the parser stores the signed-int32 value `-2^31`. -/
theorem parseTransaction_roundtrip_counterexample :
    parseTransaction (serializeTransaction ⟨2147483648, [], [], 0⟩)
      ≠ ⟨2147483648, [], [], 0⟩ := by decide

/-- C2 witness: the amended round trip evaluated on a concrete one-input,
one-output transaction with the customary sequence `0xFFFFFFFF` (which comes
back as `-1`). -/
theorem parseTransaction_serializeTransaction_witness :
    WfTx ⟨1, [⟨List.replicate 32 170, 0, [81], 4294967295⟩],
      [⟨[0, 0, 0, 0, 0, 0, 0, 1], [106]⟩], 0⟩ ∧
    parseTransaction (serializeTransaction
      ⟨1, [⟨List.replicate 32 170, 0, [81], 4294967295⟩],
        [⟨[0, 0, 0, 0, 0, 0, 0, 1], [106]⟩], 0⟩)
      = reprTx ⟨1, [⟨List.replicate 32 170, 0, [81], 4294967295⟩],
        [⟨[0, 0, 0, 0, 0, 0, 0, 1], [106]⟩], 0⟩ :=
  ⟨by unfold WfTx WfInput WfOutput; decide,
   parseTransaction_serializeTransaction _ (by unfold WfTx WfInput WfOutput; decide)⟩

/-- C3 counterexample: the claim as stated is false on both counts — the
claimed "abc" digest `...0bf0` is not what the (correct) `nobleRipemd160`
implementation produces, and the inline `BitcoinSigner.ripemd160` copy does
not reproduce the empty-string vector either. -/
theorem ripemd160_vectors_counterexample :
    nobleRipemd160 [97, 98, 99]
        ≠ hexToBytes "8eb208f7e05d987a9b044a8e98c6b087f15a0bf0" ∧
    signerRipemd160 []
        ≠ hexToBytes "9c1185a5c5e9fc54612808977ee8f548b2258d31" :=
  ⟨by decide, by decide⟩

/-- C3 (amended): `nobleRipemd160.ripemd160` reproduces the standard
RIPEMD-160 vectors — `"" → 9c1185a5...8d31` and
`"abc" → 8eb208f7e05d987a9b044a8e98c6b087f15a0bfc` (final byte `fc`, not the
claim's `f0`) — while the duplicated inline `BitcoinSigner.ripemd160` copy
reproduces neither, because its right-lane round-function schedule
`(15 - (j >> 4)) % 5 + (j >= 64 ? 1 : 0)` selects `f0,f4,f3,f2,f2` instead of
`f4,f3,f2,f1,f0`; it yields the digests below instead. -/
theorem ripemd160_vectors_amended :
    nobleRipemd160 [] = hexToBytes "9c1185a5c5e9fc54612808977ee8f548b2258d31" ∧
    nobleRipemd160 [97, 98, 99]
      = hexToBytes "8eb208f7e05d987a9b044a8e98c6b087f15a0bfc" ∧
    signerRipemd160 [] = hexToBytes "9ddaf0b1c39f49faea3f28babe7d32984907cb9b" ∧
    signerRipemd160 [97, 98, 99]
      = hexToBytes "43817094cd3405e4a7198f014e30b43bac0b88fb" :=
  ⟨by decide, by decide, by decide, by decide⟩

/-- C4: `parseTransaction` never fails on truncated input — it has no bounds
checks and no error path.  On the empty string and on a version-only prefix
it silently fabricates a transaction out of out-of-range (`undefined`/`NaN`)
reads instead of raising a `TransactionDecodingError`. -/
theorem parseTransaction_truncated_no_error :
    parseTransaction "" = ⟨0, [], [], 0⟩ ∧
    parseTransaction "01000000" = ⟨1, [], [], 0⟩ :=
  ⟨by decide, by decide⟩

/-- C5: `decodeWIF` performs no length validation: on the valid base58 input
`"1"` it returns a **0-byte** key with no error (the spec requires a
`ValidationError` whenever the stripped payload is not 32 or 33 bytes), while
the character-level `DecodeError` («Invalid WIF character») does exist, and a
genuine 37-byte WIF payload does produce the known 32-byte key. -/
theorem decodeWIF_no_length_validation :
    decodeWIF "1" = .ok [] ∧
    decodeWIF "0" = .error "Invalid WIF character" ∧
    decodeWIF "5HueCGU8rMjxEXxiPuD5BDku4MkFqeZyd4dZ1jvhTVqvbTLvyTJ"
      = .ok (hexToBytes "0c28fca386c7a227600b2fe50b7cae11ec86d3bf1fbe471be89827e19d72aa1d") :=
  ⟨by decide, by decide, by decide⟩

/-- C6 witness: the round trip evaluated on a concrete platform instance
(identity cipher, code-point text codec), salt/nonce of the right lengths,
plaintext `"ab"`, password `"password"`. -/
theorem decrypt_encrypt_witness :
    Encryption.decrypt
      ⟨fun _ _ => [], fun _ _ pt => pt, fun _ _ ct => some ct,
       fun s => s.data.map Char.toNat, fun bs => String.mk (bs.map Char.ofNat),
       fun bs => String.mk (bs.map Char.ofNat), fun s => s.data.map Char.toNat⟩
      (Encryption.encrypt
        ⟨fun _ _ => [], fun _ _ pt => pt, fun _ _ ct => some ct,
         fun s => s.data.map Char.toNat, fun bs => String.mk (bs.map Char.ofNat),
         fun bs => String.mk (bs.map Char.ofNat), fun s => s.data.map Char.toNat⟩
        (List.replicate 16 0) (List.replicate 12 0) "ab" "password")
      "password" = .ok "ab" :=
  decrypt_encrypt _ (List.replicate 16 0) (List.replicate 12 0) "ab" "password"
    (by decide) (by decide) (by decide) (by decide) (by decide)

/-- C7 witness: the invariant-preservation theorem applied to a concrete
unlocked one-account state and the `lock` operation. -/
theorem applyOp_preserves_walletInv_witness :
    WalletInv ⟨true, 0, [⟨"Account 1", "bc1qdemo", "blob"⟩], some "secret"⟩ ∧
    WalletInv (applyOp .lock ⟨true, 0, [⟨"Account 1", "bc1qdemo", "blob"⟩], some "secret"⟩) :=
  ⟨by unfold WalletInv; decide, applyOp_preserves_walletInv .lock
    ⟨true, 0, [⟨"Account 1", "bc1qdemo", "blob"⟩], some "secret"⟩
    (by unfold WalletInv; decide)⟩

/-- C8: `deleteAccount` fails (state unchanged) when only one account remains
or when the index is out of range; otherwise it removes exactly the account
at that index, decrements the current index (floored at 0) iff the removed
index was ≤ the current one, and always leaves the wallet locked. -/
theorem deleteAccount_spec (s : WalletState) (idx : Int) :
    (s.accounts.length = 1 →
      deleteAccountResult s idx = .error "Cannot delete the only account" ∧
      handleDeleteAccount s idx = s) ∧
    (s.accounts.length ≠ 1 → (idx < 0 ∨ (s.accounts.length : Int) ≤ idx) →
      deleteAccountResult s idx = .error "Invalid account index" ∧
      handleDeleteAccount s idx = s) ∧
    (s.accounts.length ≠ 1 → 0 ≤ idx → idx < (s.accounts.length : Int) →
      deleteAccountResult s idx = .ok (handleDeleteAccount s idx) ∧
      (handleDeleteAccount s idx).accounts = s.accounts.eraseIdx idx.toNat ∧
      ((handleDeleteAccount s idx).currentAccountIndex =
        if idx ≤ s.currentAccountIndex then max 0 (s.currentAccountIndex - 1)
        else s.currentAccountIndex) ∧
      (handleDeleteAccount s idx).isUnlocked = false ∧
      (handleDeleteAccount s idx).currentPrivateKey = none) := by
  refine ⟨fun h1 => ?_, fun h1 hrange => ?_, fun h1 h0 hlt => ?_⟩
  · have heq : deleteAccountResult s idx = .error "Cannot delete the only account" := by
      rw [deleteAccountResult, if_pos h1]
    exact ⟨heq, by rw [handleDeleteAccount, heq]⟩
  · have heq : deleteAccountResult s idx = .error "Invalid account index" := by
      rw [deleteAccountResult, if_neg h1, if_pos hrange]
    exact ⟨heq, by rw [handleDeleteAccount, heq]⟩
  · have hcond : ¬(idx < 0 ∨ (s.accounts.length : Int) ≤ idx) := by omega
    have heq : deleteAccountResult s idx
        = .ok { isUnlocked := false
                currentPrivateKey := none
                accounts := s.accounts.eraseIdx idx.toNat
                currentAccountIndex :=
                  if idx ≤ s.currentAccountIndex then max 0 (s.currentAccountIndex - 1)
                  else s.currentAccountIndex } := by
      rw [deleteAccountResult, if_neg h1, if_neg hcond]
    have hDel : handleDeleteAccount s idx
        = { isUnlocked := false
            currentPrivateKey := none
            accounts := s.accounts.eraseIdx idx.toNat
            currentAccountIndex :=
              if idx ≤ s.currentAccountIndex then max 0 (s.currentAccountIndex - 1)
              else s.currentAccountIndex } := by
      rw [handleDeleteAccount, heq]
    rw [heq, hDel]
    exact ⟨rfl, rfl, rfl, rfl, rfl⟩

/-- C8 witness: deletion of account 0 in a concrete two-account wallet whose
current index is 1: the account list shrinks to the second account, the
current index decrements to 0 and the wallet ends locked; the same theorem
also certifies the two failure cases on this state. -/
theorem deleteAccount_spec_witness :
    ((⟨true, 1, [⟨"Account 1", "a1", "b1"⟩, ⟨"Account 2", "a2", "b2"⟩],
        some "k"⟩ : WalletState).accounts.length ≠ 1) ∧
    deleteAccountResult
        ⟨true, 1, [⟨"Account 1", "a1", "b1"⟩, ⟨"Account 2", "a2", "b2"⟩], some "k"⟩ 0
      = .ok (handleDeleteAccount
        ⟨true, 1, [⟨"Account 1", "a1", "b1"⟩, ⟨"Account 2", "a2", "b2"⟩], some "k"⟩ 0) ∧
    (handleDeleteAccount
        ⟨true, 1, [⟨"Account 1", "a1", "b1"⟩, ⟨"Account 2", "a2", "b2"⟩], some "k"⟩ 0).accounts
      = [⟨"Account 2", "a2", "b2"⟩] ∧
    (handleDeleteAccount
        ⟨true, 1, [⟨"Account 1", "a1", "b1"⟩, ⟨"Account 2", "a2", "b2"⟩], some "k"⟩ 0).currentAccountIndex
      = 0 ∧
    (handleDeleteAccount
        ⟨true, 1, [⟨"Account 1", "a1", "b1"⟩, ⟨"Account 2", "a2", "b2"⟩], some "k"⟩ 0).isUnlocked
      = false := by
  have h := (deleteAccount_spec
    ⟨true, 1, [⟨"Account 1", "a1", "b1"⟩, ⟨"Account 2", "a2", "b2"⟩], some "k"⟩ 0).2.2
    (by decide) (by decide) (by decide)
  exact ⟨by decide, h.1, by decide, by decide, by decide⟩

/-- C9: a signing request arriving while the wallet is locked fails
immediately with the locked-wallet error (whose message contains "locked")
and leaves the pending-request table exactly as it was. -/
theorem lockedSignRequest_rejected (s : WalletState) (tbl : PendingTable)
    (requestId unsignedTx details : String) (h : s.isUnlocked = false) :
    handleSignTransactionRequest s tbl requestId unsignedTx details
      = (.error "Wallet is locked. Please unlock it first.", tbl) ∧
    ∃ before after : String,
      "Wallet is locked. Please unlock it first."
        = before ++ "locked" ++ after := by
  refine ⟨?_, "Wallet is ", ". Please unlock it first.", by decide⟩
  rw [handleSignTransactionRequest, if_pos h]

/-- C9 witness: the theorem applied to a concrete locked state and an empty
pending table. -/
theorem lockedSignRequest_rejected_witness :
    handleSignTransactionRequest
      ⟨false, 0, [⟨"Account 1", "a1", "b1"⟩], none⟩ [] "req-1" "deadbeef" "details"
      = (.error "Wallet is locked. Please unlock it first.", []) ∧
    ∃ before after : String,
      "Wallet is locked. Please unlock it first."
        = before ++ "locked" ++ after :=
  lockedSignRequest_rejected ⟨false, 0, [⟨"Account 1", "a1", "b1"⟩], none⟩ []
    "req-1" "deadbeef" "details" (by decide)

/-- C10: the approve path interprets the in-memory secret as base58 WIF.
After `handleCreateWallet` the stored `currentPrivateKey` is the 64-character
hex encoding of the generated 32 random bytes (not a WIF); the signing path
feeds exactly that string to `decodeWIF`; `handleImportWallet` stores the
caller's WIF instead.  On the concrete generated keys below the base58
interpretation of the hex string does not return the generated key: for
`0xaa...aa` it decodes to different bytes, and for `0x0101...01` it throws
outright (hex digit `0` is not in the base58 alphabet). -/
theorem createdKey_reaches_signer_as_base58 (s : WalletState) (pw : String)
    (kb : Bytes) (addr enc : String) (waddr wpk wpw wenc : String)
    (hpw : 8 ≤ pw.length) (hkb : kb.length = 32) :
    ((handleCreateWallet s pw kb addr enc).currentPrivateKey
        = some (bytesToHex kb) ∧
      (bytesToHex kb).length = 64) ∧
    (jsTruthy (some (bytesToHex kb)) = true →
      keyMaterialReachingSigner (handleCreateWallet s pw kb addr enc)
        = decodeWIF (bytesToHex kb)) ∧
    (8 ≤ wpw.length → waddr ≠ "" → wpk.length = 51 ∨ wpk.length = 52 →
      (∀ a ∈ s.accounts, a.address ≠ waddr) →
      (handleImportWallet s waddr wpk wpw wenc).currentPrivateKey = some wpk) ∧
    decodeWIF (bytesToHex (List.replicate 32 170))
      ≠ .ok (List.replicate 32 170) ∧
    decodeWIF (bytesToHex (List.replicate 32 1))
      = .error "Invalid WIF character" := by
  have hcreate : handleCreateWallet s pw kb addr enc
      = { isUnlocked := true
          currentAccountIndex :=
            ((s.accounts
              ++ [Account.mk ("Account " ++ toString (s.accounts.length + 1)) addr enc]).length : Int) - 1
          accounts := s.accounts
            ++ [Account.mk ("Account " ++ toString (s.accounts.length + 1)) addr enc]
          currentPrivateKey := some (bytesToHex kb) } := by
    rw [handleCreateWallet, if_neg (by omega)]
  refine ⟨⟨by rw [hcreate], ?_⟩, ?_, ?_, by decide, by decide⟩
  · show (String.mk (kb.flatMap byteToHex)).length = 64
    rw [String.length]
    have : ∀ l : Bytes, (l.flatMap byteToHex).length = 2 * l.length := by
      intro l
      induction l with
      | nil => rfl
      | cons b rest ih => simp [byteToHex, ih]; omega
    rw [this, hkb]
  · intro htruthy
    rw [hcreate, keyMaterialReachingSigner]
    simp only [htruthy]
    rw [if_neg (by simp [htruthy])]
    rfl
  · intro hwpw hwaddr hwpk hdup
    rw [handleImportWallet, if_neg (by omega), if_neg hwaddr,
      if_neg (by omega), if_neg ?_]
    · intro hany
      rw [List.any_eq_true] at hany
      obtain ⟨a, ha, heq⟩ := hany
      exact hdup a ha (by simpa using heq)

/-- C10 witness: the structural facts instantiated at a fresh wallet, an
8-character password and the all-`0xaa` generated key. -/
theorem createdKey_reaches_signer_witness :
    ((handleCreateWallet initialWalletState "abcdefgh" (List.replicate 32 170)
        "bc1qdemo" "blob").currentPrivateKey
        = some (bytesToHex (List.replicate 32 170)) ∧
      (bytesToHex (List.replicate 32 170)).length = 64) ∧
    (jsTruthy (some (bytesToHex (List.replicate 32 170))) = true →
      keyMaterialReachingSigner (handleCreateWallet initialWalletState "abcdefgh"
          (List.replicate 32 170) "bc1qdemo" "blob")
        = decodeWIF (bytesToHex (List.replicate 32 170))) ∧
    (8 ≤ ("password1" : String).length → ("addr2" : String) ≠ "" →
      ("K" ++ String.mk (List.replicate 50 'x') : String).length = 51 ∨
        ("K" ++ String.mk (List.replicate 50 'x') : String).length = 52 →
      (∀ a ∈ initialWalletState.accounts, a.address ≠ "addr2") →
      (handleImportWallet initialWalletState "addr2"
          ("K" ++ String.mk (List.replicate 50 'x')) "password1" "blob2").currentPrivateKey
        = some ("K" ++ String.mk (List.replicate 50 'x'))) ∧
    decodeWIF (bytesToHex (List.replicate 32 170))
      ≠ .ok (List.replicate 32 170) ∧
    decodeWIF (bytesToHex (List.replicate 32 1))
      = .error "Invalid WIF character" :=
  createdKey_reaches_signer_as_base58 initialWalletState "abcdefgh"
    (List.replicate 32 170) "bc1qdemo" "blob" "addr2"
    ("K" ++ String.mk (List.replicate 50 'x')) "password1" "blob2"
    (by decide) (by decide)

end CounterpartyExt
